import Mathlib

/-!
# go-livepeer: event-driven coordination layer

A shallow embedding of the job-creation path, the manifest path and the segment paths
(broadcast and subscribe) of `core/livepeernode.go`, of the round / reward services of `eth/roundsservice.go` and
`eth/rewardservice.go`, of the event monitor and its watch loops (`eth/eventmonitor.go`)
and of `CheckTx` (`eth/client.go`).

Conventions of the embedding
* A Go `error` value is an `Option Error` (`none` is Go's `nil`); a Go pair
  `(value, err)` is an `Except Error value`.
* `*big.Int` is `Int`; `uint64` is a `Nat` below `2 ^ 64`; a byte is a `Nat`
  (read modulo 256 where its value matters).
* Calls made on collaborators (ledger client, event monitor, channels) are recorded
  in an explicit trace, in program order.
* Functions of libraries outside the repository (Keccak256, the string order that
  `lpmscore.ByName` sorts by) are parameters, collected in `Deps`.
* Interface values other than the node's `Eth` field are taken to be non-nil; the
  context argument of the Go methods carries no data and is left out.
* A closure handed to the event monitor is named by a constructor of `Callback`.
* A run-time panic is the error case of `Except Panic`.
* A watch loop runs over the list of the rounds of its `select`, in the order in which
  they occur; a loop that has used up the list is waiting in `select`.
* A Go map that is ranged over is the list of its entries in the order of the range.
-/

namespace eth

/-- A byte string (`[]byte`). -/
abbrev Bytes := List Nat

/-- Handle of a ledger transaction (`*types.Transaction`), identified by its hash. -/
abbrev Transaction := Nat

/-- A ledger address (`common.Address`), as the number its 20 bytes spell. -/
abbrev Address := Nat

/-- The error values of the packages `core` and `eth`, and errors of collaborators. -/
inductive Error where
  | ErrLivepeerNode
  | ErrTranscode
  | ErrBroadcastTimeout
  | ErrBroadcastJob
  | ErrBroadcast
  | ErrEOF
  | ErrNotFound
  | ErrRoundsServiceStarted
  | ErrRoundsServiceStopped
  | ErrRewardServiceStarted
  | ErrRewardServiceStopped
  | ErrInactiveTranscoder
  | ErrMissingContractAddress
  | txFailed (hash : Nat)
  | external (code : Nat)
  deriving DecidableEq, Repr

/-- A call made on the ledger client, with its arguments. -/
inductive Call where
  | BlockByNumber
  | Job (streamId transcodingOptions : String) (maxPricePerSegment endBlock : Int)
  | CheckTx (tx : Transaction)
  | CurrentRound
  | LastInitializedRound
  | InitializeRound
  | IsActiveTranscoder (addr : Address) (round : Int)
  | Reward
  | Sign (msg : Bytes)
  deriving DecidableEq, Repr

/-- The part of `*ethclient.Client` that is used: the number of the latest block. -/
structure Backend where
  BlockByNumber : Except Error Int

/-- Interface `interfaces.JobsManager`, the method used here. -/
structure JobsManager where
  Job : String → String → Int → Int → Except Error Transaction

/-- Interface `interfaces.RoundsManager`, the methods used here. -/
structure RoundsManager where
  CurrentRound : Except Error Int
  LastInitializedRound : Except Error Int
  InitializeRound : Except Error Transaction

/-- Interface `interfaces.BondingManager`, the methods used here. -/
structure BondingManager where
  IsActiveTranscoder : Address → Int → Except Error Bool
  Reward : Except Error Transaction

/-- Interface `LivepeerEthClient` (`eth/client.go`), the methods used here. -/
structure LivepeerEthClient where
  Account : Address
  Backend : Backend
  BondingManager : BondingManager
  JobsManager : JobsManager
  RoundsManager : RoundsManager
  Sign : Bytes → Except Error Bytes
  CheckTx : Transaction → Option Error

/-- Comparison `x.Cmp(y)` of `math/big`: `-1`, `0` or `1`. -/
def bigCmp (x y : Int) : Int :=
  if x < y then -1 else if x = y then 0 else 1

end eth

namespace core

open eth

/-- A transcoding profile (`lpmscore.VideoProfile`). -/
structure VideoProfile where
  Name : String
  Bitrate : String
  Framerate : Nat
  Resolution : String
  AspectRatio : String
  deriving DecidableEq, Repr

/-- Library functions that `CreateTranscodeJob` calls and that live outside the
repository: `crypto.Keccak256` and the string order that `lpmscore.ByName` sorts by. -/
structure Deps where
  Keccak256 : Bytes → Bytes
  nameLess : String → String → Bool

/-- Method `Less` of `lpmscore.ByName`: the profiles are compared by their names. -/
def ByName.Less (d : Deps) (a b : VideoProfile) : Bool :=
  d.nameLess a.Name b.Name

/-- Call `sort.Sort(data)`: the slice is put in the order of `less` (after the call no
element is `less` than one before it). The names of the result do not depend on the
sorting algorithm, see `names_of_sorted_perm`. -/
def sortSort (less : VideoProfile → VideoProfile → Bool) (data : List VideoProfile) :
    List VideoProfile :=
  data.insertionSort (fun a b => less b a = false)

/-- Conversion `[]byte(s)`: the UTF-8 bytes of a string. -/
def stringBytes (s : String) : Bytes :=
  s.data.flatMap (fun c => (String.utf8EncodeChar c).map UInt8.toNat)

/-- Table `hextable` of `encoding/hex`. -/
def hextable : List Char :=
  ['0', '1', '2', '3', '4', '5', '6', '7', '8', '9', 'a', 'b', 'c', 'd', 'e', 'f']

/-- Function `common.Bytes2Hex` (`hex.EncodeToString`): two digits for each byte. -/
def Bytes2Hex (b : Bytes) : List Char :=
  b.flatMap (fun v => [hextable.getD (v % 256 / 16) '0', hextable.getD (v % 16) '0'])

/-- Function `common.ToHex` of go-ethereum: the hex digits after `0x`, and `0x0` for an
empty slice. -/
def ToHex (b : Bytes) : List Char :=
  let hex := Bytes2Hex b
  let hex := if hex.length = 0 then ['0'] else hex
  ['0', 'x'] ++ hex

/-- Conversion `int64(x)` of a `uint64`: the value is read in two's complement. -/
def int64 (x : Nat) : Int :=
  if x % 2 ^ 64 < 2 ^ 63 then ((x % 2 ^ 64 : Nat) : Int) else ((x % 2 ^ 64 : Nat) : Int) - 2 ^ 64

/-- Variable `DefaultJobLength`: one day of 15 second blocks. -/
def DefaultJobLength : Int := 5760

/-- Type `StreamID` is a string type. -/
abbrev StreamID := String

/-- Modelled from the spec: `StreamID.String` (the file declaring stream ids is not
under src/) gives the stream id as the string that is sent to the ledger. -/
def StreamID.String (id : StreamID) : String := id

/-- The node, with the field that the job-creation path reads. `Eth` can be nil. -/
structure LivepeerNode where
  Eth : Option LivepeerEthClient

/-- The loop of `CreateTranscodeJob` that builds `transOpts`: for each profile, in the
order given, the first four bytes of the Keccak256 hash of its name are appended. -/
def transOpts (d : Deps) (profiles : List VideoProfile) : Bytes :=
  profiles.foldl (fun acc prof => acc ++ (d.Keccak256 (stringBytes prof.Name)).take 4) []

/-- The option fingerprint of a profile list: sort by name, then fold the hashes. -/
def optionFingerprint (d : Deps) (profiles : List VideoProfile) : Bytes :=
  transOpts d (sortSort (ByName.Less d) profiles)

/-- The transcoding options string `ethcommon.ToHex(transOpts)[2:]`. -/
def transcodingOptions (d : Deps) (profiles : List VideoProfile) : String :=
  String.mk ((ToHex (optionFingerprint d profiles)).drop 2)

/-- Method `LivepeerNode.CreateTranscodeJob`: the returned error and the calls made on
the ledger client, in order. -/
def CreateTranscodeJob (d : Deps) (n : LivepeerNode) (strmID : StreamID)
    (profiles : List VideoProfile) (price : Nat) : Option Error × List Call :=
  match n.Eth with
  | none => (some Error.ErrNotFound, [])
  | some client =>
    let profiles := sortSort (ByName.Less d) profiles
    let transOpts := transOpts d profiles
    let p : Int := int64 price
    match client.Backend.BlockByNumber with
    | .error _ => (some Error.ErrNotFound, [Call.BlockByNumber])
    | .ok blk =>
      let opts := String.mk ((ToHex transOpts).drop 2)
      let endBlock := blk + DefaultJobLength
      match client.JobsManager.Job (StreamID.String strmID) opts p endBlock with
      | .error err =>
        (some err, [Call.BlockByNumber, Call.Job (StreamID.String strmID) opts p endBlock])
      | .ok tx =>
        match client.CheckTx tx with
        | some err =>
          (some err, [Call.BlockByNumber, Call.Job (StreamID.String strmID) opts p endBlock,
            Call.CheckTx tx])
        | none =>
          (none, [Call.BlockByNumber, Call.Job (StreamID.String strmID) opts p endBlock,
            Call.CheckTx tx])

end core

namespace eth

/-- A channel (`chan types.Log`, `chan *types.Header`), identified by a number. -/
abbrev Chan := Nat

/-- A subscription handle (`ethereum.Subscription`), identified by a number. -/
abbrev Subscription := Nat

/-- The closures that the services pass to the event monitor as callbacks.
* `initializeRound` is the closure of `RoundsService.Start`, whose body is
  `return s.tryInitializeRound(cctx)`;
* `returnNil` is the closure of `RewardService.Start`, whose body is `return nil`. -/
inductive Callback where
  | initializeRound
  | returnNil
  deriving DecidableEq, Repr

/-- What a service does to its collaborators: channel creation and closing, calls of the
event monitor (with the channel and callback passed and the handle obtained, `none` when
the call failed) and cancelling of a subscription. -/
inductive Effect where
  | MakeChan (ch : Chan)
  | SubscribeNewBlocks (ch : Chan) (cb : Callback) (sub : Option Subscription)
  | SubscribeNewRound (ch : Chan) (cb : Callback) (sub : Option Subscription)
  | Close (ch : Chan)
  | Unsubscribe (sub : Subscription)
  deriving DecidableEq, Repr

/-- The effects so far, oldest first. -/
abbrev Trace := List Effect

/-- The channel an effect mentions, plus one (zero when it mentions none). -/
def Effect.chanBound : Effect → Nat
  | .MakeChan ch => ch + 1
  | .SubscribeNewBlocks ch _ _ => ch + 1
  | .SubscribeNewRound ch _ _ => ch + 1
  | .Close ch => ch + 1
  | .Unsubscribe _ => 0

/-- Expression `make(chan ...)`: a channel that no earlier effect mentions. -/
def makeChan (t : Trace) : Chan :=
  (t.map Effect.chanBound).foldr max 0

/-- A run-time panic of the Go program. -/
inductive Panic where
  | closeOfNilChannel
  | closeOfClosedChannel
  | nilDereference
  | indexOutOfRange
  deriving DecidableEq, Repr

/-- Interface `EventMonitor`: the outcome of each subscribe call, for the channel and the
callback given. -/
structure EventMonitor where
  SubscribeNewJob : Chan → Address → Callback → Except Error Subscription
  SubscribeNewRound : Chan → Callback → Except Error Subscription
  SubscribeNewBlocks : Chan → Callback → Except Error Subscription

/-- Struct `RoundsService`. A nil `sub` or `headersCh` is `none`. -/
structure RoundsService where
  eventMonitor : EventMonitor
  client : LivepeerEthClient
  sub : Option Subscription
  headersCh : Option Chan

/-- Function `NewRoundsService`. -/
def NewRoundsService (eventMonitor : EventMonitor) (client : LivepeerEthClient) : RoundsService :=
  { eventMonitor := eventMonitor, client := client, sub := none, headersCh := none }

/-- Method `RoundsService.tryInitializeRound`: the returned error and the calls made on
the ledger client, in order. -/
def RoundsService.tryInitializeRound (s : RoundsService) : Option Error × List Call :=
  let roundsManager := s.client.RoundsManager
  match roundsManager.CurrentRound with
  | .error err => (some err, [Call.CurrentRound])
  | .ok currentRound =>
    match roundsManager.LastInitializedRound with
    | .error err => (some err, [Call.CurrentRound, Call.LastInitializedRound])
    | .ok lastInitializedRound =>
      if bigCmp lastInitializedRound currentRound = -1 then
        match roundsManager.InitializeRound with
        | .error err =>
          (some err, [Call.CurrentRound, Call.LastInitializedRound, Call.InitializeRound])
        | .ok tx =>
          (s.client.CheckTx tx,
            [Call.CurrentRound, Call.LastInitializedRound, Call.InitializeRound, Call.CheckTx tx])
      else
        (none, [Call.CurrentRound, Call.LastInitializedRound])

/-- Method `RoundsService.Start`: the returned error, the service and the trace after
the call. -/
def RoundsService.Start (s : RoundsService) (t : Trace) : Option Error × RoundsService × Trace :=
  if s.sub ≠ none then
    (some Error.ErrRoundsServiceStarted, s, t)
  else
    let headersCh := makeChan t
    match s.eventMonitor.SubscribeNewBlocks headersCh Callback.initializeRound with
    | .error err =>
      (some err, s,
        t ++ [Effect.MakeChan headersCh,
          Effect.SubscribeNewBlocks headersCh Callback.initializeRound none])
    | .ok sub =>
      (none, { s with headersCh := some headersCh, sub := some sub },
        t ++ [Effect.MakeChan headersCh,
          Effect.SubscribeNewBlocks headersCh Callback.initializeRound (some sub)])

/-- Method `RoundsService.Stop`. Closing a nil channel or a closed channel panics. -/
def RoundsService.Stop (s : RoundsService) (t : Trace) :
    Except Panic (Option Error × RoundsService × Trace) :=
  match s.sub with
  | none => .ok (some Error.ErrRoundsServiceStopped, s, t)
  | some sub =>
    match s.headersCh with
    | none => .error Panic.closeOfNilChannel
    | some ch =>
      if Effect.Close ch ∈ t then .error Panic.closeOfClosedChannel
      else
        .ok (none, { s with headersCh := none, sub := none },
          t ++ [Effect.Close ch, Effect.Unsubscribe sub])

/-- Struct `RewardService`. A nil `sub` or `logsCh` is `none`. -/
structure RewardService where
  eventMonitor : EventMonitor
  client : LivepeerEthClient
  sub : Option Subscription
  logsCh : Option Chan

/-- Method `RewardService.Start`: the returned error, the service and the trace after
the call. -/
def RewardService.Start (s : RewardService) (t : Trace) : Option Error × RewardService × Trace :=
  if s.sub ≠ none then
    (some Error.ErrRewardServiceStarted, s, t)
  else
    let logsCh := makeChan t
    match s.eventMonitor.SubscribeNewRound logsCh Callback.returnNil with
    | .error err =>
      (some err, s,
        t ++ [Effect.MakeChan logsCh, Effect.SubscribeNewRound logsCh Callback.returnNil none])
    | .ok sub =>
      (none, { s with logsCh := some logsCh, sub := some sub },
        t ++ [Effect.MakeChan logsCh,
          Effect.SubscribeNewRound logsCh Callback.returnNil (some sub)])

/-- Method `RewardService.Stop`. Closing a nil channel or a closed channel panics. -/
def RewardService.Stop (s : RewardService) (t : Trace) :
    Except Panic (Option Error × RewardService × Trace) :=
  match s.sub with
  | none => .ok (some Error.ErrRewardServiceStopped, s, t)
  | some sub =>
    match s.logsCh with
    | none => .error Panic.closeOfNilChannel
    | some ch =>
      if Effect.Close ch ∈ t then .error Panic.closeOfClosedChannel
      else
        .ok (none, { s with logsCh := none, sub := none },
          t ++ [Effect.Close ch, Effect.Unsubscribe sub])

end eth

namespace core

open eth

/-- The string order that `lpmscore.ByName` sorts by is a strict total order. -/
structure StrictTotal (lt : String → String → Bool) : Prop where
  irrefl : ∀ x, lt x x = false
  trans : ∀ x y z, lt x y = true → lt y z = true → lt x z = true
  total : ∀ x y, lt x y = true ∨ x = y ∨ lt y x = true

/-- The job-creation calls of a trace, with their four arguments. -/
def jobCalls : List Call → List (String × String × Int × Int)
  | [] => []
  | Call.Job s o p e :: rest => (s, o, p, e) :: jobCalls rest
  | _ :: rest => jobCalls rest

/-- A sample of the library functions: a stand-in hash of 32 bytes, and the ascending
string order. -/
def sampleDeps : Deps where
  Keccak256 := fun b => List.replicate 32 (b.length % 256)
  nameLess := fun x y => decide (x < y)

/-- A sample of the library functions in which `ByName` sorts in reverse, by descending
name (`Less` is `a[i].Name > a[j].Name`), with a stand-in hash of 32 bytes that tells names
apart: the first 32 bytes of its input, filled up with zeros. -/
def reverseDeps : Deps where
  Keccak256 := fun b => (b ++ List.replicate 32 0).take 32
  nameLess := fun x y => decide (y < x)

/-- A sample profile, `P240p30fps16x9`. -/
def p1 : VideoProfile := ⟨"P240p30fps16x9", "600k", 30, "426x240", "16:9"⟩

/-- A sample profile, `P360p30fps16x9`. -/
def p2 : VideoProfile := ⟨"P360p30fps16x9", "1200k", 30, "640x360", "16:9"⟩

/-- A sample ledger client: block 100, current round 6, last initialized round 5, and
every call succeeds. -/
def sampleClient : LivepeerEthClient where
  Account := 1
  Backend := ⟨.ok 100⟩
  BondingManager := ⟨fun _ _ => .ok true, .ok 8⟩
  JobsManager := ⟨fun _ _ _ _ => .ok 7⟩
  RoundsManager := ⟨.ok 6, .ok 5, .ok 9⟩
  Sign := fun m => .ok m
  CheckTx := fun _ => none

end core

namespace eth

/-- A sample event monitor, every subscribe call of which succeeds. -/
def sampleMonitor : EventMonitor where
  SubscribeNewJob := fun ch _ _ => .ok (ch + 100)
  SubscribeNewRound := fun ch _ => .ok (ch + 200)
  SubscribeNewBlocks := fun ch _ => .ok (ch + 300)

/-- A sample reward service, not started. -/
def sampleRewardService : RewardService :=
  { eventMonitor := sampleMonitor, client := core.sampleClient, sub := none, logsCh := none }

end eth

namespace eth

/-- A contract log (`types.Log`): the emitting contract, the topics and the data. -/
structure Log where
  Address : Address
  Topics : List Bytes
  Data : Bytes
  deriving DecidableEq, Repr

/-- A block header (`types.Header`), with its number. -/
structure Header where
  Number : Int
  deriving DecidableEq, Repr

/-- Method `RewardService.tryReward`: the returned error and the calls made on the ledger
client, in order. -/
def RewardService.tryReward (s : RewardService) (round : Int) : Option Error × List Call :=
  let bondingManager := s.client.BondingManager
  match bondingManager.IsActiveTranscoder s.client.Account round with
  | .error err => (some err, [Call.IsActiveTranscoder s.client.Account round])
  | .ok isActive =>
    if !isActive then
      (some Error.ErrInactiveTranscoder, [Call.IsActiveTranscoder s.client.Account round])
    else
      match bondingManager.Reward with
      | .error err => (some err, [Call.IsActiveTranscoder s.client.Account round, Call.Reward])
      | .ok tx =>
        (s.client.CheckTx tx,
          [Call.IsActiveTranscoder s.client.Account round, Call.Reward, Call.CheckTx tx])

/-- The closure that `RoundsService.Start` passes to `SubscribeNewBlocks`, named
`Callback.initializeRound` in the trace: `return s.tryInitializeRound(cctx)`. -/
def RoundsService.headerCallback (s : RoundsService) (_h : Header) : Option Error × List Call :=
  s.tryInitializeRound

/-- The closure that `RewardService.Start` passes to `SubscribeNewRound`, named
`Callback.returnNil` in the trace. Its body is `return nil`: the lines that unpack the
round of the log and end in `return s.tryReward(cctx, newRound.Round)` are commented out
in the source. -/
def RewardService.logCallback (_s : RewardService) (_l : Log) : Option Error × List Call :=
  (none, [])

/-- A call made on a service from outside. -/
inductive Op where
  | Start
  | Stop
  deriving DecidableEq, Repr

/-- One call on a rounds service. -/
def RoundsService.step (s : RoundsService) (t : Trace) :
    Op → Except Panic (RoundsService × Trace)
  | Op.Start => .ok (s.Start t).2
  | Op.Stop =>
    match s.Stop t with
    | .error p => .error p
    | .ok r => .ok r.2

/-- A sequence of calls on a rounds service, one after the other. -/
def RoundsService.run (s : RoundsService) (t : Trace) :
    List Op → Except Panic (RoundsService × Trace)
  | [] => .ok (s, t)
  | op :: ops =>
    match s.step t op with
    | .error p => .error p
    | .ok r => RoundsService.run r.1 r.2 ops

/-- One call on a reward service. -/
def RewardService.step (s : RewardService) (t : Trace) :
    Op → Except Panic (RewardService × Trace)
  | Op.Start => .ok (s.Start t).2
  | Op.Stop =>
    match s.Stop t with
    | .error p => .error p
    | .ok r => .ok r.2

/-- A sequence of calls on a reward service, one after the other. -/
def RewardService.run (s : RewardService) (t : Trace) :
    List Op → Except Panic (RewardService × Trace)
  | [] => .ok (s, t)
  | op :: ops =>
    match s.step t op with
    | .error p => .error p
    | .ok r => RewardService.run r.1 r.2 ops

/-- How one effect changes the handles of the open subscriptions: a subscribe call that
gives a handle adds it, and `Unsubscribe` on a handle removes that handle. -/
def liveStep (live : List Subscription) : Effect → List Subscription
  | Effect.SubscribeNewBlocks _ _ (some sub) => live ++ [sub]
  | Effect.SubscribeNewRound _ _ (some sub) => live ++ [sub]
  | Effect.Unsubscribe sub => live.erase sub
  | _ => live

/-- The handles of the subscriptions that a trace has created and not yet unsubscribed. -/
def liveSubscriptions (t : Trace) : List Subscription :=
  t.foldl liveStep []

/-- The number of `Unsubscribe` calls of a trace. -/
def unsubscribed : Trace → Nat
  | [] => 0
  | Effect.Unsubscribe _ :: rest => unsubscribed rest + 1
  | _ :: rest => unsubscribed rest

/-- The number of subscriptions created and not yet unsubscribed. -/
def openSubscriptions (t : Trace) : Nat :=
  (liveSubscriptions t).length

end eth

namespace eth

/-- The invariant of a rounds service and its trace: the open subscriptions are the one
held in `sub`, if any, and a held subscription comes with an open channel. -/
def RoundsService.Inv (s : RoundsService) (t : Trace) : Prop :=
  liveSubscriptions t = s.sub.toList ∧
  (s.sub ≠ none → ∃ ch, s.headersCh = some ch ∧ Effect.Close ch ∉ t)

/-- The invariant of a reward service and its trace: the open subscriptions are the one
held in `sub`, if any, and a held subscription comes with an open channel. -/
def RewardService.Inv (s : RewardService) (t : Trace) : Prop :=
  liveSubscriptions t = s.sub.toList ∧
  (s.sub ≠ none → ∃ ch, s.logsCh = some ch ∧ Effect.Close ch ∉ t)

/-- A sample reward service whose account is not an active transcoder. -/
def sampleInactiveService : RewardService :=
  { eventMonitor := sampleMonitor,
    client := { core.sampleClient with BondingManager := ⟨fun _ _ => .ok false, .ok 8⟩ },
    sub := none, logsCh := none }

end eth

namespace eth

/-- A 32-byte hash (`common.Hash`), as its bytes. -/
abbrev Hash := Bytes

/-- The `len` low bytes of a number, most significant first. -/
def beBytes (n : Nat) : Nat → Bytes
  | 0 => []
  | len + 1 => beBytes (n / 256) len ++ [n % 256]

/-- The 20 bytes of an address (`addr[:]`). -/
def Address.Bytes (addr : Address) : Bytes :=
  beBytes addr 20

/-- Function `IsNullAddress` (`eth/helpers.go`): `addr == common.Address{}`. -/
def IsNullAddress (addr : Address) : Bool :=
  decide (Address.Bytes addr = List.replicate 20 0)

/-- Function `common.LeftPadBytes` of go-ethereum. -/
def LeftPadBytes (slice : Bytes) (l : Nat) : Bytes :=
  if l ≤ slice.length then slice
  else List.replicate (l - slice.length) 0 ++ slice

/-- Function `common.BytesToHash` of go-ethereum: the last 32 bytes, padded with zeros
on the left. -/
def BytesToHash (b : Bytes) : Hash :=
  let b := if b.length > 32 then b.drop (b.length - 32) else b
  List.replicate (32 - b.length) 0 ++ b

/-- A log filter (`ethereum.FilterQuery`), with the fields that are set. -/
structure FilterQuery where
  Addresses : List Address
  Topics : List (List Hash)
  deriving DecidableEq, Repr

/-- A parsed contract ABI (`abi.ABI`): `EventId name` is `Events[name].Id()`. -/
structure ABI where
  EventId : String → Hash

/-- The generated package `contracts`, as far as the event monitor reads it: what
`abi.JSON` gives on the constants `JobsManagerABI` and `RoundsManagerABI`. -/
structure Contracts where
  JobsManagerABI : Except Error ABI
  RoundsManagerABI : Except Error ABI

/-- The subscribe methods of `*ethclient.Client`: the outcome for the query and the
channel given. -/
structure SubscribeBackend where
  SubscribeFilterLogs : FilterQuery → Chan → Except Error Subscription
  SubscribeNewHead : Chan → Except Error Subscription

/-- Struct `eventMonitor`. The map gives the address of a contract name, if any. -/
structure eventMonitor where
  backend : SubscribeBackend
  contractAddrMap : String → Option Address

/-- What the event monitor does: subscribe calls on the backend (with the handle
obtained, `none` when the call failed) and the start of a delivery loop (`go watchLogs`,
`go watchBlocks`) with the callback given. -/
inductive MonitorEffect (κ : Type) where
  | SubscribeFilterLogs (q : FilterQuery) (ch : Chan) (sub : Option Subscription)
  | SubscribeNewHead (ch : Chan) (sub : Option Subscription)
  | GoWatchLogs (sub : Subscription) (ch : Chan) (cb : κ)
  | GoWatchBlocks (sub : Subscription) (ch : Chan) (cb : κ)
  deriving DecidableEq, Repr

/-- Method `eventMonitor.SubscribeNewJob`: the result and the effects, in order. -/
def eventMonitor.SubscribeNewJob {κ : Type} (c : Contracts) (em : eventMonitor) (logsCh : Chan)
    (broadcasterAddr : Address) (cb : κ) : Except Error Subscription × List (MonitorEffect κ) :=
  match c.JobsManagerABI with
  | .error err => (.error err, [])
  | .ok abiJSON =>
    match em.contractAddrMap "JobsManager" with
    | none => (.error Error.ErrMissingContractAddress, [])
    | some contractAddr =>
      let q : FilterQuery :=
        if !IsNullAddress broadcasterAddr then
          { Addresses := [contractAddr],
            Topics := [[abiJSON.EventId "NewJob"],
              [BytesToHash (LeftPadBytes (Address.Bytes broadcasterAddr) 32)]] }
        else
          { Addresses := [contractAddr], Topics := [[abiJSON.EventId "NewJob"]] }
      match em.backend.SubscribeFilterLogs q logsCh with
      | .error err => (.error err, [MonitorEffect.SubscribeFilterLogs q logsCh none])
      | .ok sub =>
        (.ok sub, [MonitorEffect.SubscribeFilterLogs q logsCh (some sub),
          MonitorEffect.GoWatchLogs sub logsCh cb])

/-- Method `eventMonitor.SubscribeNewRound`: the result and the effects, in order. -/
def eventMonitor.SubscribeNewRound {κ : Type} (c : Contracts) (em : eventMonitor)
    (logsCh : Chan) (cb : κ) : Except Error Subscription × List (MonitorEffect κ) :=
  match c.RoundsManagerABI with
  | .error err => (.error err, [])
  | .ok abiJSON =>
    match em.contractAddrMap "RoundsManager" with
    | none => (.error Error.ErrMissingContractAddress, [])
    | some contractAddr =>
      let q : FilterQuery :=
        { Addresses := [contractAddr], Topics := [[abiJSON.EventId "NewRound"]] }
      match em.backend.SubscribeFilterLogs q logsCh with
      | .error err => (.error err, [MonitorEffect.SubscribeFilterLogs q logsCh none])
      | .ok sub =>
        (.ok sub, [MonitorEffect.SubscribeFilterLogs q logsCh (some sub),
          MonitorEffect.GoWatchLogs sub logsCh cb])

/-- Method `eventMonitor.SubscribeNewBlocks`: the result and the effects, in order. -/
def eventMonitor.SubscribeNewBlocks {κ : Type} (em : eventMonitor) (headersCh : Chan)
    (cb : κ) : Except Error Subscription × List (MonitorEffect κ) :=
  match em.backend.SubscribeNewHead headersCh with
  | .error err => (.error err, [MonitorEffect.SubscribeNewHead headersCh none])
  | .ok sub =>
    (.ok sub, [MonitorEffect.SubscribeNewHead headersCh (some sub),
      MonitorEffect.GoWatchBlocks sub headersCh cb])

/-- What one round of the `select` of a watch loop receives: a value of the delivery
channel, the notice that this channel is closed, or a value of `sub.Err()` (nil when the
error channel is closed by `Unsubscribe`). -/
inductive Recv (α : Type) where
  | item (x : α)
  | closed
  | subErr (err : Option Error)
  deriving DecidableEq, Repr

/-- How a watch loop stands after the rounds given: returned because the channel was
closed, because the callback failed, because of the subscription error channel, or still
waiting in `select`. -/
inductive WatchExit where
  | channelClosed
  | callbackError (err : Error)
  | subscriptionError (err : Option Error)
  | waiting
  deriving DecidableEq, Repr

/-- The run of a watch loop: the callback calls made, each with the item passed and the
error returned, in order; the state of the callback's world; and how the loop stands. -/
structure WatchRun (σ α : Type) where
  calls : List (α × Option Error)
  state : σ
  exit : WatchExit

/-- The loop of `watchLogs` and `watchBlocks`, over the rounds of `select` that occur.
The callback reads and changes a state of type `σ`. -/
def watch {σ α : Type} (cb : σ → α → Option Error × σ) : σ → List (Recv α) → WatchRun σ α
  | st, [] => { calls := [], state := st, exit := WatchExit.waiting }
  | st, Recv.item x :: rest =>
    match cb st x with
    | (some err, st1) =>
      { calls := [(x, some err)], state := st1, exit := WatchExit.callbackError err }
    | (none, st1) =>
      let r := watch cb st1 rest
      { calls := (x, none) :: r.calls, state := r.state, exit := r.exit }
  | st, Recv.closed :: _ => { calls := [], state := st, exit := WatchExit.channelClosed }
  | st, Recv.subErr err :: _ =>
    { calls := [], state := st, exit := WatchExit.subscriptionError err }

/-- Function `watchLogs`: the loop over a channel of logs. -/
def watchLogs {σ : Type} (cb : σ → Log → Option Error × σ) (st : σ)
    (rounds : List (Recv Log)) : WatchRun σ Log :=
  watch cb st rounds

/-- Function `watchBlocks`: the loop over a channel of headers; the callback gets the
header that the pointer received points to. -/
def watchBlocks {σ : Type} (cb : σ → Header → Option Error × σ) (st : σ)
    (rounds : List (Recv Header)) : WatchRun σ Header :=
  watch cb st rounds

/-- A transaction receipt (`types.Receipt`), with its status. -/
structure Receipt where
  Status : Nat
  deriving DecidableEq, Repr

/-- Struct `client` (`eth/client.go`), as far as `CheckTx` reads it. `WaitMined timeout tx`
is `bind.WaitMined` under a context that expires after `timeout`: the receipt, or the
code of the error of the wait (the deadline error when the time is up). -/
structure client where
  txTimeout : Nat
  WaitMined : Nat → Transaction → Except Nat Receipt

/-- Method `client.CheckTx`. -/
def client.CheckTx (c : client) (tx : Transaction) : Option Error :=
  match c.WaitMined c.txTimeout tx with
  | .error err => some (Error.external err)
  | .ok receipt =>
    if receipt.Status = 0 then some (Error.txFailed tx)
    else none

end eth

namespace eth

/-- A sample of the parsed ABIs: both constants parse. -/
def sampleContracts : Contracts where
  JobsManagerABI := .ok ⟨fun name => List.replicate 32 name.length⟩
  RoundsManagerABI := .ok ⟨fun name => List.replicate 32 name.length⟩

/-- A sample event monitor struct with an empty address map. -/
def sampleEmptyMonitor : eventMonitor where
  backend := ⟨fun _ ch => .ok (ch + 400), fun ch => .ok (ch + 500)⟩
  contractAddrMap := fun _ => none

/-- A sample callback on numbers with a counter as state: it fails on the item 3. -/
def sampleCallback (st : Nat) (x : Header) : Option Error × Nat :=
  if x.Number = 3 then (some (Error.external 1), st + 1) else (none, st + 1)

/-- A sample client struct: the transaction 1 is mined with status 1, the transaction 2
with status 0, and the wait for any other one fails with the code 9. -/
def sampleTxClient : client where
  txTimeout := 60
  WaitMined := fun _ tx => if tx = 1 then .ok ⟨1⟩ else if tx = 2 then .ok ⟨0⟩ else .error 9

end eth

namespace core

open eth

/-- The parameters of a playlist variant (`m3u8.VariantParams`), with the fields that a
profile sets. -/
structure VariantParams where
  Bandwidth : Nat
  Resolution : String
  deriving DecidableEq, Repr

/-- A media playlist (`m3u8.MediaPlaylist`), with its window size and capacity. -/
structure MediaPlaylist where
  winsize : Nat
  capacity : Nat
  deriving DecidableEq, Repr

/-- An entry of a master playlist (`m3u8.Variant`). A nil `Chunklist` is `none`. -/
structure Variant where
  URI : String
  Chunklist : Option MediaPlaylist
  VariantParams : VariantParams
  deriving DecidableEq, Repr

/-- A master playlist (`m3u8.MasterPlaylist`), with its variants. -/
structure MasterPlaylist where
  Variants : List Variant
  deriving DecidableEq, Repr

/-- A video stream (`stream.HLSVideoStream`), with its stream id and window size. -/
structure HLSVideoStream where
  GetStreamID : String
  wait : Nat
  deriving DecidableEq, Repr

/-- Library values and functions of lpms and m3u8 that the manifest path reads:
the profile registry (a missing name gives the zero profile), the conversion of a profile
to variant parameters, the default window size and capacity, and the playlist
constructor. -/
structure Lpms where
  VideoProfileLookup : String → VideoProfile
  VideoProfileToVariantParams : VideoProfile → VariantParams
  DefaultHLSStreamWin : Nat
  DefaultHLSStreamCap : Nat
  NewMediaPlaylist : Nat → Nat → Except Error MediaPlaylist

/-- Function `stream.NewBasicHLSVideoStream`. -/
def NewBasicHLSVideoStream (strmID : String) (wait : Nat) : HLSVideoStream :=
  { GetStreamID := strmID, wait := wait }

/-- Interface `stream.HLSVideoManifest`, over the states `σ` of the manifest object. -/
structure HLSVideoManifest (σ : Type) where
  GetManifestID : σ → String
  GetManifest : σ → Except Error MasterPlaylist
  GetVideoStreams : σ → List HLSVideoStream
  AddVideoStream : σ → HLSVideoStream → Variant → Option Error × σ

/-- Interface `net.VideoNetwork`, the method whose result is read here. -/
structure VideoNetwork where
  UpdateMasterPlaylist : String → MasterPlaylist → Option Error

/-- A call made on the network or a change made to the manifest. -/
inductive NetCall where
  | UpdateMasterPlaylist (mid : String) (mpl : MasterPlaylist)
  | ReceivedTranscodeResponse (strmID : String)
  | AddVideoStream (strm : HLSVideoStream) (variant : Variant)
  deriving DecidableEq, Repr

/-- Method `LivepeerNode.BroadcastManifestToNetwork`, on the node's `VideoNetwork` and a
manifest in the state `st`: the returned error and the calls made, in order. Indexing an
empty stream list panics. The closure registered by `ReceivedTranscodeResponse` is
`transcodeResponseCallback`. -/
def BroadcastManifestToNetwork {σ : Type} (vn : VideoNetwork) (manifest : HLSVideoManifest σ)
    (st : σ) : Except Panic (Option Error × List NetCall) :=
  match manifest.GetManifest st with
  | .error _ => .ok (some Error.ErrBroadcast, [])
  | .ok mpl =>
    match vn.UpdateMasterPlaylist (manifest.GetManifestID st) mpl with
    | some _ =>
      .ok (some Error.ErrBroadcast,
        [NetCall.UpdateMasterPlaylist (manifest.GetManifestID st) mpl])
    | none =>
      if (manifest.GetVideoStreams st).length > 1 then
        .ok (some Error.ErrBroadcast,
          [NetCall.UpdateMasterPlaylist (manifest.GetManifestID st) mpl])
      else
        match manifest.GetVideoStreams st with
        | [] => .error Panic.indexOutOfRange
        | strm :: _ =>
          .ok (none, [NetCall.UpdateMasterPlaylist (manifest.GetManifestID st) mpl,
            NetCall.ReceivedTranscodeResponse strm.GetStreamID])

/-- The variant that the transcode-response closure builds for one entry of the result
map, the stream id `entry.1` and the profile name `entry.2`. The error of
`NewMediaPlaylist` is dropped. -/
def resultVariant (lp : Lpms) (entry : String × String) : Variant :=
  let vParams := lp.VideoProfileToVariantParams (lp.VideoProfileLookup entry.2)
  let pl := (lp.NewMediaPlaylist lp.DefaultHLSStreamWin lp.DefaultHLSStreamCap).toOption
  { URI := entry.1 ++ ".m3u8", Chunklist := pl, VariantParams := vParams }

/-- The stream that the transcode-response closure makes for one entry of the result
map. -/
def resultStream (lp : Lpms) (entry : String × String) : HLSVideoStream :=
  NewBasicHLSVideoStream entry.1 lp.DefaultHLSStreamWin

/-- The body of the loop of the transcode-response closure, for one entry of the result
map: the variant and the stream are added to the manifest. The error of `AddVideoStream`
is only logged. -/
def addResultStream {σ : Type} (lp : Lpms) (manifest : HLSVideoManifest σ)
    (acc : σ × List NetCall) (entry : String × String) : σ × List NetCall :=
  let variant := resultVariant lp entry
  let strm := resultStream lp entry
  ((manifest.AddVideoStream acc.1 strm variant).2, acc.2 ++ [NetCall.AddVideoStream strm variant])

/-- The closure that `BroadcastManifestToNetwork` registers with
`ReceivedTranscodeResponse`, called on the entries of a result map in the order in which
the map is ranged over: the state of the manifest after the call and the calls made. -/
def transcodeResponseCallback {σ : Type} (lp : Lpms) (vn : VideoNetwork)
    (manifest : HLSVideoManifest σ) (st : σ) (result : List (String × String)) :
    σ × List NetCall :=
  let r := result.foldl (addResultStream lp manifest) (st, [])
  match manifest.GetManifest r.1 with
  | .error _ => r
  | .ok mpl =>
    match vn.UpdateMasterPlaylist (manifest.GetManifestID r.1) mpl with
    | some _ => (r.1, r.2 ++ [NetCall.UpdateMasterPlaylist (manifest.GetManifestID r.1) mpl])
    | none => (r.1, r.2 ++ [NetCall.UpdateMasterPlaylist (manifest.GetManifestID r.1) mpl])

/-- The `AddVideoStream` calls of a trace, with their arguments. -/
def addCalls : List NetCall → List (HLSVideoStream × Variant)
  | [] => []
  | NetCall.AddVideoStream strm variant :: rest => (strm, variant) :: addCalls rest
  | _ :: rest => addCalls rest

/-- The number of `UpdateMasterPlaylist` calls of a trace. -/
def updateCalls : List NetCall → Nat
  | [] => 0
  | NetCall.UpdateMasterPlaylist _ _ :: rest => updateCalls rest + 1
  | _ :: rest => updateCalls rest

/-- The number of `ReceivedTranscodeResponse` calls of a trace. -/
def registerCalls : List NetCall → Nat
  | [] => 0
  | NetCall.ReceivedTranscodeResponse _ :: rest => registerCalls rest + 1
  | _ :: rest => registerCalls rest

/-- A sample of the lpms values: the registry knows the two sample profiles. -/
def sampleLpms : Lpms where
  VideoProfileLookup := fun name =>
    if name = "P240p30fps16x9" then p1 else if name = "P360p30fps16x9" then p2
    else ⟨"", "", 0, "", ""⟩
  VideoProfileToVariantParams := fun p => ⟨p.Bitrate.length, p.Resolution⟩
  DefaultHLSStreamWin := 3
  DefaultHLSStreamCap := 1000
  NewMediaPlaylist := fun win cap =>
    if cap < win then .error (Error.external 2) else .ok ⟨win, cap⟩

/-- A sample network that accepts every playlist. -/
def sampleNetwork : VideoNetwork where
  UpdateMasterPlaylist := fun _ _ => none

/-- A sample manifest whose state is its list of streams and variants; the master
playlist lists the variants. -/
def sampleManifest : HLSVideoManifest (List (HLSVideoStream × Variant)) where
  GetManifestID := fun _ => "manifest"
  GetManifest := fun st => .ok ⟨st.map Prod.snd⟩
  GetVideoStreams := fun st => st.map Prod.fst
  AddVideoStream := fun st strm variant => (none, st ++ [(strm, variant)])

/-- A sample manifest whose playlist can be built only while it has at most one stream. -/
def sampleFailingManifest : HLSVideoManifest (List (HLSVideoStream × Variant)) where
  GetManifestID := fun _ => "manifest"
  GetManifest := fun st =>
    if st.length ≤ 1 then .ok ⟨st.map Prod.snd⟩ else .error (Error.external 3)
  GetVideoStreams := fun st => st.map Prod.fst
  AddVideoStream := fun st strm variant => (none, st ++ [(strm, variant)])

/-- A sample source stream with its variant. -/
def sampleSource : HLSVideoStream × Variant :=
  (⟨"source", 3⟩, ⟨"source.m3u8", none, ⟨0, ""⟩⟩)

end core

namespace core

open eth

/-- A media segment (`stream.HLSSegment`). The duration, a float in the source, is carried
as a number that is only stored and passed on. -/
structure HLSSegment where
  SeqNo : Nat
  Name : String
  Data : Bytes
  Duration : Nat
  deriving DecidableEq, Repr

/-- Struct `SignedSegment`: a segment and the signature of its hash. -/
structure SignedSegment where
  Seg : HLSSegment
  Sig : Bytes
  deriving DecidableEq, Repr

/-- Struct `ethTypes.Segment`: what the hash of a segment is taken over. -/
structure Segment where
  StreamID : String
  SegmentSequenceNumber : Int
  DataHash : Hash
  deriving DecidableEq, Repr

/-- Functions of the repository on segments that are declared outside the files at hand,
taken as parameters: the method `Hash` of `ethTypes.Segment` (the hash over stream id,
sequence number and data hash), and the encoding `SignedSegmentToBytes` of a signed segment
as one payload with its decoding `BytesToSignedSegment`. -/
structure SegmentFns where
  Hash : Segment → Hash
  SignedSegmentToBytes : SignedSegment → Except Error Bytes
  BytesToSignedSegment : Bytes → Except Error SignedSegment

/-- Interface `stream.Broadcaster`, the method used here. -/
structure Broadcaster where
  Broadcast : Nat → Bytes → Option Error

/-- A call made by `BroadcastHLSSegToNetwork` on the ledger client or the broadcaster. -/
inductive BroadcastCall where
  | Sign (msg : Bytes)
  | Broadcast (seqNo : Nat) (data : Bytes)
  deriving DecidableEq, Repr

/-- The value `segHash` of `BroadcastHLSSegToNetwork`: the hash of the stream id, the
sequence number as `big.NewInt(int64(seg.SeqNo))` and the Keccak256 hash of the data. -/
def segHash (d : Deps) (f : SegmentFns) (strmID : String) (seg : HLSSegment) : Hash :=
  f.Hash { StreamID := strmID, SegmentSequenceNumber := int64 seg.SeqNo,
           DataHash := d.Keccak256 seg.Data }

/-- Method `LivepeerNode.BroadcastHLSSegToNetwork`: the returned error and the calls made,
in order. The call `n.Eth.Sign` on a nil `Eth` panics. The error of `Broadcast` is only
logged. -/
def BroadcastHLSSegToNetwork (d : Deps) (f : SegmentFns) (n : LivepeerNode) (strmID : String)
    (seg : HLSSegment) (b : Broadcaster) : Except Panic (Option Error × List BroadcastCall) :=
  let segHash := segHash d f strmID seg
  match n.Eth with
  | none => .error Panic.nilDereference
  | some client =>
    match client.Sign segHash with
    | .error err => .ok (some err, [BroadcastCall.Sign segHash])
    | .ok sig =>
      match f.SignedSegmentToBytes { Seg := seg, Sig := sig } with
      | .ok ssb =>
        match b.Broadcast seg.SeqNo ssb with
        | some _ => .ok (none, [BroadcastCall.Sign segHash, BroadcastCall.Broadcast seg.SeqNo ssb])
        | none => .ok (none, [BroadcastCall.Sign segHash, BroadcastCall.Broadcast seg.SeqNo ssb])
      | .error err => .ok (some err, [BroadcastCall.Sign segHash])

/-- Interface `stream.Subscriber`, the method that the subscribe callback calls. -/
structure Subscriber where
  Unsubscribe : Option Error

/-- The local stream (`stream.HLSVideoStream`) that `SubscribeFromNetwork` fills: the
outcome of adding a segment. -/
structure LocalStream where
  AddHLSSegment : HLSSegment → Option Error

/-- A call made by the subscribe callback on the subscriber or the local stream. -/
inductive StreamCall where
  | Unsubscribe
  | End
  | AddHLSSegment (seg : HLSSegment)
  deriving DecidableEq, Repr

/-- The closure that `SubscribeFromNetwork` passes to `sub.Subscribe`, called with a
sequence number, a payload and the end-of-stream flag: the calls it makes, in order. The
errors of decoding and of `AddHLSSegment` are only logged. -/
def subscribeCallback (f : SegmentFns) (sub : Subscriber) (strm : LocalStream) (_seqNo : Nat)
    (data : Bytes) (eof : Bool) : List StreamCall :=
  if eof then
    match sub.Unsubscribe with
    | some _ => [StreamCall.Unsubscribe]
    | none => [StreamCall.Unsubscribe, StreamCall.End]
  else
    match f.BytesToSignedSegment data with
    | .error _ => []
    | .ok ss =>
      match strm.AddHLSSegment ss.Seg with
      | some _ => [StreamCall.AddHLSSegment ss.Seg]
      | none => [StreamCall.AddHLSSegment ss.Seg]

/-- The segments that a trace of stream calls appends to the local stream. -/
def appended : List StreamCall → List HLSSegment
  | [] => []
  | StreamCall.AddHLSSegment seg :: rest => seg :: appended rest
  | _ :: rest => appended rest

/-- The `Broadcast` calls of a trace, with their arguments. -/
def broadcastCalls : List BroadcastCall → List (Nat × Bytes)
  | [] => []
  | BroadcastCall.Broadcast seqNo data :: rest => (seqNo, data) :: broadcastCalls rest
  | _ :: rest => broadcastCalls rest

/-- The messages of the `Sign` calls of a trace. -/
def signedMessages : List BroadcastCall → List Bytes
  | [] => []
  | BroadcastCall.Sign msg :: rest => msg :: signedMessages rest
  | _ :: rest => signedMessages rest

/-- A sample of the segment functions: the hash lists the length of the stream id, the
sign and the low byte of the sequence number and the length of the data hash; the payload
is the sequence number, then the signature, then the data. -/
def sampleSegmentFns : SegmentFns where
  Hash := fun s =>
    [s.StreamID.length, if s.SegmentSequenceNumber < 0 then 1 else 0,
      s.SegmentSequenceNumber.natAbs % 256, s.DataHash.length]
  SignedSegmentToBytes := fun ss =>
    if ss.Seg.Data = [] then .error (Error.external 4)
    else .ok (ss.Seg.SeqNo % 256 :: ss.Sig.length :: (ss.Sig ++ ss.Seg.Data))
  BytesToSignedSegment := fun b =>
    match b with
    | seqNo :: n :: rest => .ok ⟨⟨seqNo, "", rest.drop n, 0⟩, rest.take n⟩
    | _ => .error (Error.external 5)

/-- A sample broadcaster that fails on every call. -/
def sampleFailingBroadcaster : Broadcaster where
  Broadcast := fun _ _ => some (Error.external 6)

/-- A sample segment. -/
def sampleSegment : HLSSegment :=
  { SeqNo := 7, Name := "seg7.ts", Data := [1, 2, 3], Duration := 8 }

end core

namespace eth

/-- A sample event monitor struct whose map has the address 77 for `JobsManager`. -/
def sampleJobsMonitor : eventMonitor where
  backend := ⟨fun _ ch => .ok (ch + 400), fun ch => .ok (ch + 500)⟩
  contractAddrMap := fun name => if name = "JobsManager" then some 77 else none

/-- A sample event monitor, every subscribe call of which fails. -/
def sampleFailingMonitor : EventMonitor where
  SubscribeNewJob := fun _ _ _ => .error (Error.external 7)
  SubscribeNewRound := fun _ _ => .error (Error.external 7)
  SubscribeNewBlocks := fun _ _ => .error (Error.external 7)

end eth

/-! ## The option fingerprint of `CreateTranscodeJob` -/

namespace core

open eth

/-- The ascending order of strings is a strict total order. -/
theorem strictTotal_lt : StrictTotal (fun x y => decide (x < y)) where
  irrefl := fun x => by simp
  trans := fun x y z h1 h2 => by
    simp only [decide_eq_true_eq] at *
    exact lt_trans h1 h2
  total := fun x y => by
    simp only [decide_eq_true_eq]
    exact lt_trichotomy x y

/-- The loop that builds `transOpts`, started from any prefix, appends the four-byte
blocks of the profiles in order. -/
theorem transOpts_fold (d : Deps) (l : List VideoProfile) (init : Bytes) :
    l.foldl (fun acc prof => acc ++ (d.Keccak256 (stringBytes prof.Name)).take 4) init
      = init ++ (l.map (fun p => (d.Keccak256 (stringBytes p.Name)).take 4)).flatten := by
  induction l generalizing init with
  | nil => simp
  | cons a t ih => simp [ih, List.append_assoc]

/-- The fingerprint bytes are a function of the list of names. -/
theorem transOpts_names (d : Deps) (l : List VideoProfile) :
    transOpts d l
      = ((l.map VideoProfile.Name).map (fun s => (d.Keccak256 (stringBytes s)).take 4)).flatten := by
  unfold transOpts
  rw [transOpts_fold]
  simp [List.map_map, Function.comp_def]

/-- Sorting rearranges the profiles. -/
theorem sortSort_perm (d : Deps) (l : List VideoProfile) :
    (sortSort (ByName.Less d) l).Perm l :=
  List.perm_insertionSort _ l

/-- After sorting, no profile has a name below the name of a profile before it. -/
theorem sortSort_sorted (d : Deps) (hd : StrictTotal d.nameLess) (l : List VideoProfile) :
    (sortSort (ByName.Less d) l).Sorted (fun a b => d.nameLess b.Name a.Name = false) := by
  haveI : IsTotal VideoProfile (fun a b => ByName.Less d b a = false) := ⟨fun a b => by
    simp only [ByName.Less]
    by_contra hcon
    push_neg at hcon
    have h1 : d.nameLess b.Name a.Name = true := by simpa using hcon.1
    have h2 : d.nameLess a.Name b.Name = true := by simpa using hcon.2
    have := hd.trans _ _ _ h1 h2
    rw [hd.irrefl] at this
    exact Bool.noConfusion this⟩
  haveI : IsTrans VideoProfile (fun a b => ByName.Less d b a = false) := ⟨fun a b c hab hbc => by
    simp only [ByName.Less] at *
    by_contra hcon
    have hca : d.nameLess c.Name a.Name = true := by simpa using hcon
    rcases hd.total b.Name a.Name with h | h | h
    · rw [h] at hab; exact Bool.noConfusion hab
    · rw [h] at hbc; rw [hbc] at hca; exact Bool.noConfusion hca
    · have := hd.trans _ _ _ hca h
      rw [this] at hbc; exact Bool.noConfusion hbc⟩
  exact List.sorted_insertionSort (fun a b => ByName.Less d b a = false) l

/-- Two sorted arrangements of the same profiles carry the same names in the same order,
whatever algorithm produced them. -/
theorem names_of_sorted_perm {lt : String → String → Bool} (h : StrictTotal lt)
    {s1 s2 : List VideoProfile} (hp : s1.Perm s2)
    (h1 : s1.Sorted (fun a b => lt b.Name a.Name = false))
    (h2 : s2.Sorted (fun a b => lt b.Name a.Name = false)) :
    s1.map VideoProfile.Name = s2.map VideoProfile.Name := by
  haveI : IsAntisymm String (fun x y => lt y x = false) := ⟨fun x y hxy hyx => by
    rcases h.total x y with h | h | h
    · rw [h] at hyx; exact Bool.noConfusion hyx
    · exact h
    · rw [h] at hxy; exact Bool.noConfusion hxy⟩
  have e1 : (s1.map VideoProfile.Name).Sorted (fun x y => lt y x = false) :=
    List.pairwise_map.mpr h1
  have e2 : (s2.map VideoProfile.Name).Sorted (fun x y => lt y x = false) :=
    List.pairwise_map.mpr h2
  exact List.eq_of_perm_of_sorted (hp.map _) e1 e2

/-- Sorting two permutations of a profile list gives the same sequence of names. -/
theorem sortSort_names_perm (d : Deps) (hd : StrictTotal d.nameLess) {P1 P2 : List VideoProfile}
    (h : P1.Perm P2) :
    (sortSort (ByName.Less d) P1).map VideoProfile.Name
      = (sortSort (ByName.Less d) P2).map VideoProfile.Name :=
  names_of_sorted_perm hd
    (((sortSort_perm d P1).trans h).trans (sortSort_perm d P2).symm)
    (sortSort_sorted d hd P1) (sortSort_sorted d hd P2)

/-- Claim C1: for profile lists `P1` and `P2` that are permutations of each other, the
option fingerprint that `CreateTranscodeJob` builds (sort by name, then append the first
four bytes of Keccak256 of each name) is the same, and so is every result and every
ledger call of `CreateTranscodeJob`. The order that `ByName` sorts by is any strict total
order of the names. -/
theorem optionFingerprint_perm (d : Deps) (hd : StrictTotal d.nameLess)
    (P1 P2 : List VideoProfile) (h : P1.Perm P2) :
    optionFingerprint d P1 = optionFingerprint d P2 ∧
    ∀ (n : LivepeerNode) (strmID : StreamID) (price : Nat),
      CreateTranscodeJob d n strmID P1 price = CreateTranscodeJob d n strmID P2 price := by
  have key : transOpts d (sortSort (ByName.Less d) P1)
      = transOpts d (sortSort (ByName.Less d) P2) := by
    rw [transOpts_names, transOpts_names, sortSort_names_perm d hd h]
  refine ⟨key, ?_⟩
  intro n strmID price
  unfold CreateTranscodeJob
  simp only [key]

/-- Claim C1 at the profile lists `[p2, p1]` and `[p1, p2]`. -/
theorem optionFingerprint_perm_witness :
    List.Perm [p2, p1] [p1, p2] ∧
    optionFingerprint sampleDeps [p2, p1] = optionFingerprint sampleDeps [p1, p2] :=
  ⟨List.Perm.swap _ _ _,
    (optionFingerprint_perm sampleDeps strictTotal_lt [p2, p1] [p1, p2]
      (List.Perm.swap _ _ _)).1⟩

/-- A concatenation of blocks of four has four times as many elements as blocks. -/
theorem flatten_length_four {α : Type} (L : List (List α)) (hL : ∀ x ∈ L, x.length = 4) :
    L.flatten.length = 4 * L.length := by
  induction L with
  | nil => simp
  | cons x t ih =>
    have hx : x.length = 4 := hL x (List.mem_cons_self _ _)
    have ht := ih (fun y hy => hL y (List.mem_cons_of_mem _ hy))
    simp only [List.flatten_cons, List.length_append, List.length_cons, hx, ht]
    omega

/-- In a concatenation of blocks of four, the four elements from position `4 * i` on are
the block of index `i`. -/
theorem flatten_block {α : Type} (L : List (List α)) (hL : ∀ x ∈ L, x.length = 4)
    (i : Nat) (hi : i < L.length) :
    (L.flatten.drop (4 * i)).take 4 = L[i] := by
  induction L generalizing i with
  | nil => simp at hi
  | cons x t ih =>
    have hx : x.length = 4 := hL x (List.mem_cons_self _ _)
    cases i with
    | zero =>
      simp only [List.flatten_cons, Nat.mul_zero, List.drop_zero, List.getElem_cons_zero]
      rw [← hx, List.take_left]
    | succ j =>
      have hj : j < t.length := by simpa using hi
      have e : 4 * (j + 1) = x.length + 4 * j := by omega
      simp only [List.flatten_cons, List.getElem_cons_succ]
      rw [e, List.drop_append]
      exact ih (fun y hy => hL y (List.mem_cons_of_mem _ hy)) j hj

/-- The fingerprint has four bytes for each profile. -/
theorem optionFingerprint_length (d : Deps) (hk : ∀ m, (d.Keccak256 m).length = 32)
    (profiles : List VideoProfile) :
    (optionFingerprint d profiles).length = 4 * profiles.length := by
  unfold optionFingerprint
  rw [transOpts_names, flatten_length_four]
  · simp [(sortSort_perm d profiles).length_eq]
  · intro x hx
    simp only [List.mem_map] at hx
    obtain ⟨s, -, rfl⟩ := hx
    simp [hk]

/-- The descending order of strings is a strict total order. -/
theorem strictTotal_gt : StrictTotal (fun x y => decide (y < x)) where
  irrefl := fun x => by simp
  trans := fun x y z h1 h2 => by
    simp only [decide_eq_true_eq] at *
    exact lt_trans h2 h1
  total := fun x y => by
    simp only [decide_eq_true_eq]
    rcases lt_trichotomy x y with h | h | h
    · exact Or.inr (Or.inr h)
    · exact Or.inr (Or.inl h)
    · exact Or.inl h

/-- The stand-in hash of `reverseDeps` gives 32 bytes. -/
theorem reverseDeps_Keccak256_length (m : Bytes) : (reverseDeps.Keccak256 m).length = 32 := by
  simp [reverseDeps]

/-- The name of `p1` is below the name of `p2`. -/
theorem p1_Name_lt_p2_Name : p1.Name < p2.Name := by
  rw [String.lt_iff_toList_lt]
  decide

/-- With `ByName` sorting in reverse, the fingerprint of `[p1, p2]` is the block of `p2`
followed by the block of `p1`. -/
theorem optionFingerprint_reverseDeps :
    optionFingerprint reverseDeps [p1, p2] = [80, 51, 54, 48, 80, 50, 52, 48] := by
  have h12 : ByName.Less reverseDeps p2 p1 = true := by
    simp only [ByName.Less, reverseDeps, decide_eq_true_eq]
    exact p1_Name_lt_p2_Name
  have e : sortSort (ByName.Less reverseDeps) [p1, p2] = [p2, p1] := by
    simp [sortSort, List.insertionSort, List.orderedInsert, h12]
  rw [optionFingerprint, e]
  decide

/-- Claim C2 fails where `ByName` sorts in reverse: for the profile list `[p1, p2]` there
is no arrangement `names` of the profile names in ascending order such that the
fingerprint has `4 * 2` bytes with the `i`-th block being the first four bytes of the hash
of `names[i]`. The ascending arrangement starts with `P240p30fps16x9`, and the first block
of the fingerprint is the block of `P360p30fps16x9`. -/
theorem optionFingerprint_ascending_counterexample :
    ¬ ∃ names : List String,
      names.Perm ([p1, p2].map VideoProfile.Name) ∧ names.Sorted (fun x y => x ≤ y) ∧
      (optionFingerprint reverseDeps [p1, p2]).length = 4 * [p1, p2].length ∧
      ∀ (i : Nat) (hi : i < names.length),
        ((optionFingerprint reverseDeps [p1, p2]).drop (4 * i)).take 4
          = (reverseDeps.Keccak256 (stringBytes names[i])).take 4 := by
  rintro ⟨names, hperm, hsorted, -, hblock⟩
  have hs : ([p1, p2].map VideoProfile.Name).Sorted (fun x y => x ≤ y) := by
    simp only [List.map_cons, List.map_nil, List.Sorted, List.pairwise_cons, List.mem_cons,
      List.mem_singleton, List.not_mem_nil, forall_eq_or_imp, forall_eq, false_implies,
      implies_true, List.Pairwise.nil, and_true]
    exact le_of_lt p1_Name_lt_p2_Name
  have hn : names = [p1, p2].map VideoProfile.Name := List.eq_of_perm_of_sorted hperm hsorted hs
  subst hn
  have h0 := hblock 0 (by simp)
  rw [optionFingerprint_reverseDeps] at h0
  revert h0
  decide

/-- Claim C2, amended: for a profile list of length `n` the option fingerprint built by
`CreateTranscodeJob` has exactly `4 * n` bytes, and its `i`-th block of four bytes is the
first four bytes of Keccak256 of the `i`-th profile name in the order of `ByName`: `names`
is the rearrangement of the profile names in which no name is followed by one that
`ByName.Less` puts before it. Keccak256 gives 32 bytes and the order that `ByName` sorts
by is any strict total order of the names, ascending or descending. -/
theorem optionFingerprint_blocks_byName (d : Deps) (hk : ∀ m, (d.Keccak256 m).length = 32)
    (hd : StrictTotal d.nameLess) (profiles : List VideoProfile) :
    ∃ names : List String,
      names.Perm (profiles.map VideoProfile.Name) ∧
      names.Sorted (fun x y => d.nameLess y x = false) ∧
      (optionFingerprint d profiles).length = 4 * profiles.length ∧
      ∀ (i : Nat) (hi : i < names.length),
        ((optionFingerprint d profiles).drop (4 * i)).take 4
          = (d.Keccak256 (stringBytes names[i])).take 4 := by
  refine ⟨(sortSort (ByName.Less d) profiles).map VideoProfile.Name,
    (sortSort_perm d profiles).map _, List.pairwise_map.mpr (sortSort_sorted d hd profiles),
    optionFingerprint_length d hk profiles, ?_⟩
  intro i hi
  unfold optionFingerprint
  rw [transOpts_names, flatten_block]
  · simp
  · intro x hx
    simp only [List.mem_map] at hx
    obtain ⟨s, -, rfl⟩ := hx
    simp [hk]
  · simpa using hi

/-- Claim C2, amended, at the profile list `[p1, p2]` with `ByName` sorting in reverse. -/
theorem optionFingerprint_blocks_byName_witness :
    (∀ m, (reverseDeps.Keccak256 m).length = 32) ∧ StrictTotal reverseDeps.nameLess ∧
    ∃ names : List String,
      names.Perm ([p1, p2].map VideoProfile.Name) ∧
      names.Sorted (fun x y => reverseDeps.nameLess y x = false) ∧
      (optionFingerprint reverseDeps [p1, p2]).length = 4 * [p1, p2].length ∧
      ∀ (i : Nat) (hi : i < names.length),
        ((optionFingerprint reverseDeps [p1, p2]).drop (4 * i)).take 4
          = (reverseDeps.Keccak256 (stringBytes names[i])).take 4 :=
  ⟨reverseDeps_Keccak256_length, strictTotal_gt,
    optionFingerprint_blocks_byName reverseDeps reverseDeps_Keccak256_length strictTotal_gt
      [p1, p2]⟩

/-! ## The job-creation call of `CreateTranscodeJob` -/

/-- With a ledger client whose block query answers `b`, exactly one job-creation call is
made, with the stream id, the options string, the converted price and `b` plus the
default job length. -/
theorem jobCalls_CreateTranscodeJob (d : Deps) (n : LivepeerNode) (client : LivepeerEthClient)
    (strmID : StreamID) (profiles : List VideoProfile) (price : Nat) (b : Int)
    (hEth : n.Eth = some client) (hb : client.Backend.BlockByNumber = .ok b) :
    jobCalls (CreateTranscodeJob d n strmID profiles price).2
      = [(StreamID.String strmID, transcodingOptions d profiles, int64 price,
          b + DefaultJobLength)] := by
  unfold CreateTranscodeJob
  simp only [hEth, hb]
  cases hj : client.JobsManager.Job (StreamID.String strmID)
      (String.mk ((ToHex (transOpts d (sortSort (ByName.Less d) profiles))).drop 2))
      (int64 price) (b + DefaultJobLength) with
  | error err => simp [jobCalls, transcodingOptions, optionFingerprint]
  | ok tx =>
    cases hc : client.CheckTx tx with
    | none => simp [hc, jobCalls, transcodingOptions, optionFingerprint]
    | some err => simp [hc, jobCalls, transcodingOptions, optionFingerprint]

/-- The hex encoding has two characters for each byte. -/
theorem Bytes2Hex_length (b : Bytes) : (Bytes2Hex b).length = 2 * b.length := by
  induction b with
  | nil => rfl
  | cons v t ih =>
    have : Bytes2Hex (v :: t)
        = [hextable.getD (v % 256 / 16) '0', hextable.getD (v % 16) '0'] ++ Bytes2Hex t := by
      simp [Bytes2Hex]
    rw [this, List.length_append, ih]
    simp only [List.length_cons, List.length_nil]
    omega

/-- An index below 16 selects a character of the hex table. -/
theorem hextable_getD_mem (k : Nat) (hk : k < 16) : hextable.getD k '0' ∈ hextable := by
  have : ∀ k : Fin 16, hextable.getD k.val '0' ∈ hextable := by decide
  exact this ⟨k, hk⟩

/-- The hex encoding consists of characters of the hex table. -/
theorem Bytes2Hex_digits (b : Bytes) : ∀ c ∈ Bytes2Hex b, c ∈ hextable := by
  intro c hc
  simp only [Bytes2Hex, List.mem_flatMap, List.mem_cons, List.mem_singleton] at hc
  obtain ⟨v, -, hv⟩ := hc
  rcases hv with rfl | hv
  · exact hextable_getD_mem _ (by omega)
  · rcases hv with rfl | hv
    · exact hextable_getD_mem _ (by omega)
    · simp at hv

/-- Claim C3 fails at the empty profile list: the options string passed to the
job-creation call is then the one character `0` (the rest of `0x0`), not the empty string
of `8 * 0` characters. -/
theorem transcodingOptions_empty_counterexample :
    jobCalls (CreateTranscodeJob sampleDeps ⟨some sampleClient⟩ "stream" [] 1).2
      = [("stream", "0", 1, 5860)] ∧
    ¬ ((transcodingOptions sampleDeps []).length = 8 * ([] : List VideoProfile).length) := by
  decide

/-- Claim C3, amended: for every non-empty profile list of length `n`, the options string
that `CreateTranscodeJob` passes to the job-creation call is the hex encoding of the
fingerprint with no `0x` before it: exactly `8 * n` characters, each a hex digit, four
bytes for each profile. Keccak256 gives 32 bytes. -/
theorem transcodingOptions_hex (d : Deps) (hk : ∀ m, (d.Keccak256 m).length = 32)
    (profiles : List VideoProfile) (hne : profiles ≠ []) :
    transcodingOptions d profiles = String.mk (Bytes2Hex (optionFingerprint d profiles)) ∧
    (transcodingOptions d profiles).length = 8 * profiles.length ∧
    (∀ c ∈ (transcodingOptions d profiles).data, c ∈ hextable) ∧
    ∀ (n : LivepeerNode) (client : LivepeerEthClient) (strmID : StreamID) (price : Nat) (b : Int),
      n.Eth = some client → client.Backend.BlockByNumber = .ok b →
      (jobCalls (CreateTranscodeJob d n strmID profiles price).2).map (fun c => c.2.1)
        = [transcodingOptions d profiles] := by
  have hlen := optionFingerprint_length d hk profiles
  have hpos : 0 < profiles.length := List.length_pos.mpr hne
  have hhex : (Bytes2Hex (optionFingerprint d profiles)).length ≠ 0 := by
    rw [Bytes2Hex_length, hlen]; omega
  have e : transcodingOptions d profiles
      = String.mk (Bytes2Hex (optionFingerprint d profiles)) := by
    simp [transcodingOptions, ToHex, hhex]
  refine ⟨e, ?_, ?_, ?_⟩
  · rw [e, String.length, Bytes2Hex_length, hlen]; omega
  · rw [e]; exact Bytes2Hex_digits _
  · intro n client strmID price b hEth hb
    rw [jobCalls_CreateTranscodeJob d n client strmID profiles price b hEth hb]
    rfl

/-- Claim C3, amended, at the profile list `[p2, p1]` and the sample client. -/
theorem transcodingOptions_hex_witness :
    (∀ m, (sampleDeps.Keccak256 m).length = 32) ∧ [p2, p1] ≠ [] ∧
    (transcodingOptions sampleDeps [p2, p1]).length = 8 * [p2, p1].length ∧
    (jobCalls (CreateTranscodeJob sampleDeps ⟨some sampleClient⟩ "stream" [p2, p1] 3).2).map
      (fun c => c.2.1) = [transcodingOptions sampleDeps [p2, p1]] :=
  ⟨fun _ => List.length_replicate _ _, by decide,
    (transcodingOptions_hex sampleDeps (fun _ => List.length_replicate _ _) [p2, p1]
      (by decide)).2.1,
    (transcodingOptions_hex sampleDeps (fun _ => List.length_replicate _ _) [p2, p1]
      (by decide)).2.2.2 ⟨some sampleClient⟩ sampleClient "stream" 3 100 rfl rfl⟩

/-- Claim C4: for every current block number `b` that the ledger returns, the expiry block
that `CreateTranscodeJob` passes to the job-creation call is `b + DefaultJobLength`, and
`DefaultJobLength` is 5760. -/
theorem CreateTranscodeJob_endBlock (d : Deps) (n : LivepeerNode) (client : LivepeerEthClient)
    (strmID : StreamID) (profiles : List VideoProfile) (price : Nat) (b : Int)
    (hEth : n.Eth = some client) (hb : client.Backend.BlockByNumber = .ok b) :
    DefaultJobLength = 5760 ∧
    (jobCalls (CreateTranscodeJob d n strmID profiles price).2).map (fun c => c.2.2.2)
      = [b + 5760] := by
  rw [jobCalls_CreateTranscodeJob d n client strmID profiles price b hEth hb]
  exact ⟨rfl, rfl⟩

/-- Claim C4 at the sample client, whose current block is 100. -/
theorem CreateTranscodeJob_endBlock_witness :
    sampleClient.Backend.BlockByNumber = .ok 100 ∧
    (jobCalls (CreateTranscodeJob sampleDeps ⟨some sampleClient⟩ "stream" [p2, p1] 3).2).map
      (fun c => c.2.2.2) = [100 + 5760] :=
  ⟨rfl, (CreateTranscodeJob_endBlock sampleDeps ⟨some sampleClient⟩ sampleClient "stream"
    [p2, p1] 3 100 rfl rfl).2⟩

/-- Claim C5 fails on the code: the price goes through `int64`, so the `uint64` price
`2 ^ 63` reaches the job-creation call as `-9223372036854775808`, and the price
`2 ^ 64 - 1` as `-1`. -/
theorem CreateTranscodeJob_price_wraps :
    (jobCalls (CreateTranscodeJob sampleDeps ⟨some sampleClient⟩ "stream" [] (2 ^ 63)).2).map
      (fun c => c.2.2.1) = [-9223372036854775808] ∧
    (jobCalls (CreateTranscodeJob sampleDeps ⟨some sampleClient⟩ "stream" []
      18446744073709551615).2).map (fun c => c.2.2.1) = [-1] := by
  decide

/-- Claim C6: when the node has no ledger client (`Eth` is nil), `CreateTranscodeJob`
returns `ErrNotFound` for every stream id, profile list and price, and makes no call on
the ledger, so it submits no job-creation transaction. -/
theorem CreateTranscodeJob_noEth (d : Deps) (n : LivepeerNode) (strmID : StreamID)
    (profiles : List VideoProfile) (price : Nat) (hEth : n.Eth = none) :
    CreateTranscodeJob d n strmID profiles price = (some Error.ErrNotFound, []) ∧
    jobCalls (CreateTranscodeJob d n strmID profiles price).2 = [] := by
  unfold CreateTranscodeJob
  simp [hEth, jobCalls]

/-- Claim C6 at a node without ledger client. -/
theorem CreateTranscodeJob_noEth_witness :
    CreateTranscodeJob sampleDeps ⟨none⟩ "stream" [p2, p1] 3 = (some Error.ErrNotFound, []) :=
  (CreateTranscodeJob_noEth sampleDeps ⟨none⟩ "stream" [p2, p1] 3 rfl).1

end core

/-! ## The rounds service and the reward service -/

namespace eth

/-- Every effect of a trace mentions only channels below the one `makeChan` gives. -/
theorem chanBound_le_makeChan (t : Trace) : ∀ e ∈ t, e.chanBound ≤ makeChan t := by
  induction t with
  | nil => intro e he; simp at he
  | cons a rest ih =>
    intro e he
    have hm : makeChan (a :: rest) = max a.chanBound (makeChan rest) := by
      simp [makeChan]
    rw [hm]
    rcases List.mem_cons.mp he with rfl | h
    · exact le_max_left _ _
    · exact le_trans (ih e h) (le_max_right _ _)

/-- The channel that `makeChan` gives has not been closed. -/
theorem makeChan_not_closed (t : Trace) : Effect.Close (makeChan t) ∉ t := by
  intro h
  have := chanBound_le_makeChan t _ h
  simp [Effect.chanBound] at this

/-- Claim C7: for every pair of rounds read successfully from the chain,
`tryInitializeRound` makes exactly one `InitializeRound` call when
`lastInitializedRound < currentRound` (and returns what `CheckTx` says of the transaction
when the call gives one); otherwise it makes no such call, only the two reads, and
returns nil. -/
theorem tryInitializeRound_submits (s : RoundsService) (currentRound lastInitializedRound : Int)
    (hc : s.client.RoundsManager.CurrentRound = .ok currentRound)
    (hl : s.client.RoundsManager.LastInitializedRound = .ok lastInitializedRound) :
    (lastInitializedRound < currentRound →
      (s.tryInitializeRound.2.count Call.InitializeRound = 1 ∧
       ∀ tx, s.client.RoundsManager.InitializeRound = .ok tx →
         s.tryInitializeRound.1 = s.client.CheckTx tx)) ∧
    (¬ lastInitializedRound < currentRound →
      s.tryInitializeRound = (none, [Call.CurrentRound, Call.LastInitializedRound]) ∧
      s.tryInitializeRound.2.count Call.InitializeRound = 0) := by
  unfold RoundsService.tryInitializeRound
  simp only [hc, hl]
  constructor
  · intro hlt
    have hcmp : bigCmp lastInitializedRound currentRound = -1 := by simp [bigCmp, hlt]
    simp only [hcmp, if_true]
    cases hi : s.client.RoundsManager.InitializeRound with
    | error err => simp [List.count_cons]
    | ok tx => simp [List.count_cons]
  · intro hge
    have hcmp : ¬ bigCmp lastInitializedRound currentRound = -1 := by
      unfold bigCmp
      rw [if_neg hge]
      split <;> decide
    simp only [hcmp, if_false]
    simp [List.count_cons]

/-- Claim C7 at the sample client: last initialized round 5, current round 6. -/
theorem tryInitializeRound_submits_witness :
    (5 : Int) < 6 ∧
    (NewRoundsService sampleMonitor core.sampleClient).tryInitializeRound.2.count
      Call.InitializeRound = 1 :=
  ⟨by decide,
    ((tryInitializeRound_submits (NewRoundsService sampleMonitor core.sampleClient) 6 5 rfl
      rfl).1 (by decide)).1⟩

/-- Claim C8: `Start` on a rounds service that holds a subscription handle returns
`ErrRoundsServiceStarted`, makes no channel and no subscription (the trace is as before),
and leaves the service, with its `sub` and `headersCh`, as it was. -/
theorem RoundsService_Start_started (s : RoundsService) (t : Trace) (h : s.sub ≠ none) :
    s.Start t = (some Error.ErrRoundsServiceStarted, s, t) := by
  unfold RoundsService.Start
  rw [if_pos h]

/-- Claim C8 at a service that holds the handle 4 and the channel 2. -/
theorem RoundsService_Start_started_witness :
    RoundsService.Start
        { eventMonitor := sampleMonitor, client := core.sampleClient, sub := some 4,
          headersCh := some 2 }
        [Effect.MakeChan 2, Effect.SubscribeNewBlocks 2 Callback.initializeRound (some 4)]
      = (some Error.ErrRoundsServiceStarted,
          { eventMonitor := sampleMonitor, client := core.sampleClient, sub := some 4,
            headersCh := some 2 },
          [Effect.MakeChan 2, Effect.SubscribeNewBlocks 2 Callback.initializeRound (some 4)]) :=
  RoundsService_Start_started _ _ (by decide)

/-- Claim C9: `Stop` on a rounds service that holds no subscription handle returns
`ErrRoundsServiceStopped`, closes no channel and cancels no subscription (the trace is as
before), and leaves the service as it was. -/
theorem RoundsService_Stop_stopped (s : RoundsService) (t : Trace) (h : s.sub = none) :
    s.Stop t = .ok (some Error.ErrRoundsServiceStopped, s, t) := by
  unfold RoundsService.Stop
  rw [h]

/-- Claim C9 at a new rounds service. -/
theorem RoundsService_Stop_stopped_witness :
    (NewRoundsService sampleMonitor core.sampleClient).Stop []
      = .ok (some Error.ErrRoundsServiceStopped, NewRoundsService sampleMonitor core.sampleClient,
          []) :=
  RoundsService_Stop_stopped _ _ rfl

/-- On a reward service that holds a handle, `Start` fails and changes nothing. -/
theorem RewardService_Start_of_started (s : RewardService) (t : Trace) (h : s.sub ≠ none) :
    s.Start t = (some Error.ErrRewardServiceStarted, s, t) := by
  unfold RewardService.Start
  rw [if_pos h]

/-- On a reward service without handle, a successful subscribe call makes `Start` store
the new channel and the handle. -/
theorem RewardService_Start_of_stopped (s : RewardService) (t : Trace) (sub : Subscription)
    (h : s.sub = none)
    (hs : s.eventMonitor.SubscribeNewRound (makeChan t) Callback.returnNil = .ok sub) :
    s.Start t = (none, { s with logsCh := some (makeChan t), sub := some sub },
      t ++ [Effect.MakeChan (makeChan t),
        Effect.SubscribeNewRound (makeChan t) Callback.returnNil (some sub)]) := by
  unfold RewardService.Start
  simp [h, hs]

/-- On a reward service without handle, `Stop` fails and changes nothing. -/
theorem RewardService_Stop_of_stopped (s : RewardService) (t : Trace) (h : s.sub = none) :
    s.Stop t = .ok (some Error.ErrRewardServiceStopped, s, t) := by
  unfold RewardService.Stop
  rw [h]

/-- After a call of `Stop` that returns, the reward service holds no handle. -/
theorem RewardService_Stop_sub (s s1 : RewardService) (t t1 : Trace) (e1 : Option Error)
    (h : s.Stop t = .ok (e1, s1, t1)) : s1.sub = none := by
  unfold RewardService.Stop at h
  cases hsub : s.sub with
  | none =>
    rw [hsub] at h
    injection h with h
    injection h with _ h
    injection h with h _
    rw [← h, hsub]
  | some sub =>
    rw [hsub] at h
    cases hch : s.logsCh with
    | none => rw [hch] at h; exact Except.noConfusion h
    | some ch =>
      rw [hch] at h
      by_cases hcl : Effect.Close ch ∈ t
      · simp [hcl] at h
      · simp only [hcl, if_false] at h
        injection h with h
        injection h with _ h
        injection h with h _
        rw [← h]

/-- Claim C10: for a reward service whose event monitor subscribes successfully,
(1) the second of two `Start` calls returns `ErrRewardServiceStarted`;
(2) after a `Stop` call that returns, a second `Stop` returns `ErrRewardServiceStopped`
and changes nothing;
(3) on a service without handle `Stop` returns `ErrRewardServiceStopped`, and from such
a service `Start` returns nil, `Stop` then returns nil, a second `Stop` returns
`ErrRewardServiceStopped`, and `Start` then returns nil again. -/
theorem RewardService_Start_Stop (s : RewardService) (t : Trace)
    (hem : ∀ ch cb, ∃ sub, s.eventMonitor.SubscribeNewRound ch cb = .ok sub) :
    ((s.Start t).2.1.Start (s.Start t).2.2).1 = some Error.ErrRewardServiceStarted ∧
    (∀ e1 s1 t1, s.Stop t = .ok (e1, s1, t1) →
      s1.Stop t1 = .ok (some Error.ErrRewardServiceStopped, s1, t1)) ∧
    (s.sub = none →
      s.Stop t = .ok (some Error.ErrRewardServiceStopped, s, t) ∧
      ∃ s1 t1 s2 t2 s3 t3,
        s.Start t = (none, s1, t1) ∧ s1.Stop t1 = .ok (none, s2, t2) ∧
        s2.Stop t2 = .ok (some Error.ErrRewardServiceStopped, s2, t2) ∧
        s2.Start t2 = (none, s3, t3)) := by
  refine ⟨?_, ?_, ?_⟩
  · by_cases h : s.sub = none
    · obtain ⟨sub, hs⟩ := hem (makeChan t) Callback.returnNil
      rw [RewardService_Start_of_stopped s t sub h hs]
      exact congrArg Prod.fst (RewardService_Start_of_started _ _ (by simp))
    · rw [RewardService_Start_of_started s t h]
      exact congrArg Prod.fst (RewardService_Start_of_started s t h)
  · intro e1 s1 t1 h1
    exact RewardService_Stop_of_stopped s1 t1 (RewardService_Stop_sub s s1 t t1 e1 h1)
  · intro h
    obtain ⟨sub, hs⟩ := hem (makeChan t) Callback.returnNil
    have hstop : RewardService.Stop { s with logsCh := some (makeChan t), sub := some sub }
        (t ++ [Effect.MakeChan (makeChan t),
          Effect.SubscribeNewRound (makeChan t) Callback.returnNil (some sub)])
        = .ok (none, { s with logsCh := none, sub := none },
            (t ++ [Effect.MakeChan (makeChan t),
              Effect.SubscribeNewRound (makeChan t) Callback.returnNil (some sub)])
              ++ [Effect.Close (makeChan t), Effect.Unsubscribe sub]) := by
      unfold RewardService.Stop
      simp [makeChan_not_closed t]
    obtain ⟨sub2, hs2⟩ := hem
      (makeChan ((t ++ [Effect.MakeChan (makeChan t),
        Effect.SubscribeNewRound (makeChan t) Callback.returnNil (some sub)])
        ++ [Effect.Close (makeChan t), Effect.Unsubscribe sub])) Callback.returnNil
    exact ⟨RewardService_Stop_of_stopped s t h,
      _, _, _, _, _, _, RewardService_Start_of_stopped s t sub h hs, hstop,
      RewardService_Stop_of_stopped _ _ rfl,
      RewardService_Start_of_stopped _ _ sub2 rfl hs2⟩

/-- Claim C10 at a new reward service with the sample event monitor. -/
theorem RewardService_Start_Stop_witness :
    (∀ ch cb, ∃ sub, sampleMonitor.SubscribeNewRound ch cb = .ok sub) ∧
    ((sampleRewardService.Start []).2.1.Start (sampleRewardService.Start []).2.2).1
      = some Error.ErrRewardServiceStarted ∧
    ∃ s1 t1 s2 t2 s3 t3,
      sampleRewardService.Start [] = (none, s1, t1) ∧ s1.Stop t1 = .ok (none, s2, t2) ∧
      s2.Stop t2 = .ok (some Error.ErrRewardServiceStopped, s2, t2) ∧
      s2.Start t2 = (none, s3, t3) :=
  ⟨fun ch _ => ⟨ch + 200, rfl⟩,
    (RewardService_Start_Stop sampleRewardService [] (fun ch _ => ⟨ch + 200, rfl⟩)).1,
    ((RewardService_Start_Stop sampleRewardService [] (fun ch _ => ⟨ch + 200, rfl⟩)).2.2 rfl).2⟩

end eth

/-! ## Sequences of `Start` and `Stop`, and the reward callback -/

namespace eth

/-- The open subscriptions after two traces in a row: the second trace goes on from the
open subscriptions of the first. -/
theorem liveSubscriptions_append (t u : Trace) :
    liveSubscriptions (t ++ u) = u.foldl liveStep (liveSubscriptions t) := by
  unfold liveSubscriptions
  rw [List.foldl_append]

/-- The `Unsubscribe` calls of two traces in a row add up. -/
theorem unsubscribed_append (t u : Trace) :
    unsubscribed (t ++ u) = unsubscribed t + unsubscribed u := by
  induction t with
  | nil => simp [unsubscribed]
  | cons a rest ih =>
    cases a with
    | Unsubscribe x => simp [unsubscribed, ih]; omega
    | MakeChan ch => simpa [unsubscribed] using ih
    | SubscribeNewBlocks ch cb sub => simpa [unsubscribed] using ih
    | SubscribeNewRound ch cb sub => simpa [unsubscribed] using ih
    | Close ch => simpa [unsubscribed] using ih

/-- A call of `Start` keeps the invariant of the rounds service. -/
theorem RoundsService_Start_inv (s : RoundsService) (t : Trace) (h : RoundsService.Inv s t) :
    RoundsService.Inv (s.Start t).2.1 (s.Start t).2.2 := by
  unfold RoundsService.Start
  by_cases hs : s.sub = none
  · simp only [hs, ne_eq, not_true_eq_false, if_false]
    obtain ⟨hlive, -⟩ := h
    rw [hs] at hlive
    cases hsub : s.eventMonitor.SubscribeNewBlocks (makeChan t) Callback.initializeRound with
    | error err =>
      refine ⟨?_, ?_⟩
      · rw [liveSubscriptions_append, hlive, hs]
        rfl
      · intro hne; exact absurd hs hne
    | ok sub =>
      refine ⟨?_, ?_⟩
      · rw [liveSubscriptions_append, hlive]
        rfl
      · intro _
        refine ⟨makeChan t, rfl, ?_⟩
        simp [makeChan_not_closed t]
  · simp only [ne_eq, hs, not_false_eq_true, if_true]
    exact h

/-- A call of `Stop` returns and keeps the invariant of the rounds service. -/
theorem RoundsService_Stop_inv (s : RoundsService) (t : Trace) (h : RoundsService.Inv s t) :
    ∃ r, s.Stop t = .ok r ∧ RoundsService.Inv r.2.1 r.2.2 := by
  unfold RoundsService.Stop
  cases hs : s.sub with
  | none => exact ⟨_, rfl, h⟩
  | some sub =>
    obtain ⟨hlive, hch⟩ := h
    rw [hs] at hlive
    obtain ⟨ch, hc, hcl⟩ := hch (by simp [hs])
    simp only [hc, hcl, if_false]
    refine ⟨_, rfl, ?_, ?_⟩
    · rw [liveSubscriptions_append, hlive]
      simp [liveStep]
    · intro hne; simp at hne

/-- A sequence of calls on a rounds service returns and keeps the invariant. -/
theorem RoundsService_run_inv (ops : List Op) :
    ∀ (s : RoundsService) (t : Trace), RoundsService.Inv s t →
      ∃ r, s.run t ops = .ok r ∧ RoundsService.Inv r.1 r.2 := by
  induction ops with
  | nil => intro s t h; exact ⟨(s, t), rfl, h⟩
  | cons op ops ih =>
    intro s t h
    cases op with
    | Start =>
      obtain ⟨r, hr, hinv⟩ := ih _ _ (RoundsService_Start_inv s t h)
      exact ⟨r, by simpa [RoundsService.run, RoundsService.step] using hr, hinv⟩
    | Stop =>
      obtain ⟨r1, hr1, hinv1⟩ := RoundsService_Stop_inv s t h
      obtain ⟨r, hr, hinv⟩ := ih _ _ hinv1
      exact ⟨r, by simpa [RoundsService.run, RoundsService.step, hr1] using hr, hinv⟩

/-- A call of `Start` keeps the invariant of the reward service. -/
theorem RewardService_Start_inv (s : RewardService) (t : Trace) (h : RewardService.Inv s t) :
    RewardService.Inv (s.Start t).2.1 (s.Start t).2.2 := by
  unfold RewardService.Start
  by_cases hs : s.sub = none
  · simp only [hs, ne_eq, not_true_eq_false, if_false]
    obtain ⟨hlive, -⟩ := h
    rw [hs] at hlive
    cases hsub : s.eventMonitor.SubscribeNewRound (makeChan t) Callback.returnNil with
    | error err =>
      refine ⟨?_, ?_⟩
      · rw [liveSubscriptions_append, hlive, hs]
        rfl
      · intro hne; exact absurd hs hne
    | ok sub =>
      refine ⟨?_, ?_⟩
      · rw [liveSubscriptions_append, hlive]
        rfl
      · intro _
        refine ⟨makeChan t, rfl, ?_⟩
        simp [makeChan_not_closed t]
  · simp only [ne_eq, hs, not_false_eq_true, if_true]
    exact h

/-- A call of `Stop` returns and keeps the invariant of the reward service. -/
theorem RewardService_Stop_inv (s : RewardService) (t : Trace) (h : RewardService.Inv s t) :
    ∃ r, s.Stop t = .ok r ∧ RewardService.Inv r.2.1 r.2.2 := by
  unfold RewardService.Stop
  cases hs : s.sub with
  | none => exact ⟨_, rfl, h⟩
  | some sub =>
    obtain ⟨hlive, hch⟩ := h
    rw [hs] at hlive
    obtain ⟨ch, hc, hcl⟩ := hch (by simp [hs])
    simp only [hc, hcl, if_false]
    refine ⟨_, rfl, ?_, ?_⟩
    · rw [liveSubscriptions_append, hlive]
      simp [liveStep]
    · intro hne; simp at hne

/-- A sequence of calls on a reward service returns and keeps the invariant. -/
theorem RewardService_run_inv (ops : List Op) :
    ∀ (s : RewardService) (t : Trace), RewardService.Inv s t →
      ∃ r, s.run t ops = .ok r ∧ RewardService.Inv r.1 r.2 := by
  induction ops with
  | nil => intro s t h; exact ⟨(s, t), rfl, h⟩
  | cons op ops ih =>
    intro s t h
    cases op with
    | Start =>
      obtain ⟨r, hr, hinv⟩ := ih _ _ (RewardService_Start_inv s t h)
      exact ⟨r, by simpa [RewardService.run, RewardService.step] using hr, hinv⟩
    | Stop =>
      obtain ⟨r1, hr1, hinv1⟩ := RewardService_Stop_inv s t h
      obtain ⟨r, hr, hinv⟩ := ih _ _ hinv1
      exact ⟨r, by simpa [RewardService.run, RewardService.step, hr1] using hr, hinv⟩

/-- The invariant read off: when the open subscriptions are the handle held, if any, there
is at most one, and there is one exactly when a handle is held. -/
theorem openSubscriptions_of_live (t : Trace) (sub : Option Subscription)
    (h : liveSubscriptions t = sub.toList) :
    openSubscriptions t ≤ 1 ∧ (openSubscriptions t = 1 ↔ sub ≠ none) := by
  unfold openSubscriptions
  rw [h]
  cases sub with
  | none => simp
  | some x => simp

/-- Claim C11: for every sequence of `Start` and `Stop` calls on one service, started
from a service that holds no handle and has made no effect, the sequence returns, and
after it the subscriptions created and not yet unsubscribed, handle by handle (an
`Unsubscribe` call closes only the handle it is called on), are exactly the handle in the
`sub` field, if any: their number is at most one, and is one exactly when `sub` is
non-nil. Every point of a sequence is the end of a shorter sequence, so this holds at
every point. The event monitor may fail or succeed at will. First part: `RoundsService`;
second part: `RewardService`. -/
theorem openSubscriptions_le_one (ops : List Op) (eventMonitor : EventMonitor)
    (client : LivepeerEthClient) :
    (∃ s t, (NewRoundsService eventMonitor client).run [] ops = .ok (s, t) ∧
      liveSubscriptions t = s.sub.toList ∧
      openSubscriptions t ≤ 1 ∧ (openSubscriptions t = 1 ↔ s.sub ≠ none)) ∧
    (∃ s t, RewardService.run
        { eventMonitor := eventMonitor, client := client, sub := none, logsCh := none } [] ops
        = .ok (s, t) ∧
      liveSubscriptions t = s.sub.toList ∧
      openSubscriptions t ≤ 1 ∧ (openSubscriptions t = 1 ↔ s.sub ≠ none)) := by
  constructor
  · obtain ⟨r, hr, hlive, -⟩ := RoundsService_run_inv ops (NewRoundsService eventMonitor client)
      [] ⟨rfl, by simp [NewRoundsService]⟩
    exact ⟨r.1, r.2, hr, hlive, openSubscriptions_of_live r.2 r.1.sub hlive⟩
  · obtain ⟨r, hr, hlive, -⟩ := RewardService_run_inv ops
      { eventMonitor := eventMonitor, client := client, sub := none, logsCh := none } []
      ⟨rfl, by simp⟩
    exact ⟨r.1, r.2, hr, hlive, openSubscriptions_of_live r.2 r.1.sub hlive⟩

/-- Claim C12 fails on the code: `Start` of the reward service registers the closure
`Callback.returnNil`, and this closure returns nil without any call on the ledger, for an
account that is an active transcoder; `tryReward` on the round would check the status and
submit the reward transaction. -/
theorem RewardService_logCallback_skips_tryReward :
    (sampleRewardService.Start []).2.2
      = [Effect.MakeChan 0, Effect.SubscribeNewRound 0 Callback.returnNil (some 200)] ∧
    (sampleRewardService.Start []).2.1.logCallback ⟨0, [], [0, 7]⟩ = (none, []) ∧
    (sampleRewardService.Start []).2.1.tryReward 7
      = (none, [Call.IsActiveTranscoder 1 7, Call.Reward, Call.CheckTx 8]) := by
  decide

/-- Claim C13: for every round in which the active-transcoder query succeeds and says
that this account is not active, `tryReward` returns `ErrInactiveTranscoder` and makes no
`Reward` call: its only call is the query. -/
theorem tryReward_inactive (s : RewardService) (round : Int)
    (h : s.client.BondingManager.IsActiveTranscoder s.client.Account round = .ok false) :
    s.tryReward round
      = (some Error.ErrInactiveTranscoder, [Call.IsActiveTranscoder s.client.Account round]) ∧
    (s.tryReward round).2.count Call.Reward = 0 := by
  unfold RewardService.tryReward
  simp [h, List.count_cons]

/-- Claim C13 at a reward service whose account is not an active transcoder. -/
theorem tryReward_inactive_witness :
    sampleInactiveService.tryReward 7
      = (some Error.ErrInactiveTranscoder, [Call.IsActiveTranscoder 1 7]) :=
  (tryReward_inactive sampleInactiveService 7 rfl).1

/-- Claim C14: for every round in which the active-transcoder query says that this
account is active and the `Reward` call gives a transaction, `tryReward` makes exactly one
`Reward` call and returns exactly what `CheckTx` says of that transaction. -/
theorem tryReward_active (s : RewardService) (round : Int) (tx : Transaction)
    (ha : s.client.BondingManager.IsActiveTranscoder s.client.Account round = .ok true)
    (hr : s.client.BondingManager.Reward = .ok tx) :
    (s.tryReward round).2.count Call.Reward = 1 ∧
    (s.tryReward round).1 = s.client.CheckTx tx ∧
    (s.tryReward round).2
      = [Call.IsActiveTranscoder s.client.Account round, Call.Reward, Call.CheckTx tx] := by
  unfold RewardService.tryReward
  simp [ha, hr, List.count_cons]

/-- Claim C14 at the sample reward service, whose account is active. -/
theorem tryReward_active_witness :
    (sampleRewardService.tryReward 7).2.count Call.Reward = 1 ∧
    (sampleRewardService.tryReward 7).1 = sampleRewardService.client.CheckTx 8 :=
  ⟨(tryReward_active sampleRewardService 7 8 rfl rfl).1,
    (tryReward_active sampleRewardService 7 8 rfl rfl).2.1⟩

end eth

/-! ## The event monitor, the watch loops and `CheckTx` -/

namespace eth

/-- Claim C15: when the ABI constants parse, `SubscribeNewJob` returns
`ErrMissingContractAddress` if the address map has no `JobsManager` entry, and
`SubscribeNewRound` returns it if the map has no `RoundsManager` entry; in both cases
there is no effect at all: no subscription on the backend and no delivery loop. -/
theorem Subscribe_missing_address {κ : Type} (c : Contracts) (em : eventMonitor)
    (jobsABI roundsABI : ABI) (logsCh : Chan) (broadcasterAddr : Address) (cb : κ)
    (hj : c.JobsManagerABI = .ok jobsABI) (hr : c.RoundsManagerABI = .ok roundsABI) :
    (em.contractAddrMap "JobsManager" = none →
      em.SubscribeNewJob c logsCh broadcasterAddr cb
        = (.error Error.ErrMissingContractAddress, [])) ∧
    (em.contractAddrMap "RoundsManager" = none →
      em.SubscribeNewRound c logsCh cb = (.error Error.ErrMissingContractAddress, [])) := by
  constructor
  · intro h
    simp [eventMonitor.SubscribeNewJob, hj, h]
  · intro h
    simp [eventMonitor.SubscribeNewRound, hr, h]

/-- Claim C15 at an event monitor with an empty address map. -/
theorem Subscribe_missing_address_witness :
    sampleEmptyMonitor.contractAddrMap "JobsManager" = none ∧
    sampleEmptyMonitor.SubscribeNewJob sampleContracts 0 5 Callback.returnNil
      = (.error Error.ErrMissingContractAddress, []) ∧
    sampleEmptyMonitor.SubscribeNewRound sampleContracts 0 Callback.returnNil
      = (.error Error.ErrMissingContractAddress, []) :=
  ⟨rfl,
    (Subscribe_missing_address sampleContracts sampleEmptyMonitor _ _ 0 5 Callback.returnNil
      rfl rfl).1 rfl,
    (Subscribe_missing_address sampleContracts sampleEmptyMonitor _ _ 0 5 Callback.returnNil
      rfl rfl).2 rfl⟩

/-- On a run of delivered items only, the callback calls are made on the first items, in
order; all calls but the last returned nil; and if an item was left out, the last call
returned an error. -/
theorem watch_items {σ α : Type} (cb : σ → α → Option Error × σ) (items : List α) :
    ∀ st : σ,
      ((watch cb st (items.map Recv.item)).calls.map Prod.fst
        = items.take (watch cb st (items.map Recv.item)).calls.length) ∧
      (∀ c ∈ (watch cb st (items.map Recv.item)).calls.dropLast, c.2 = none) ∧
      ((watch cb st (items.map Recv.item)).calls.length < items.length →
        ∃ x err, (watch cb st (items.map Recv.item)).calls.getLast? = some (x, some err) ∧
          (watch cb st (items.map Recv.item)).exit = WatchExit.callbackError err) := by
  induction items with
  | nil => intro st; simp [watch]
  | cons x rest ih =>
    intro st
    simp only [List.map_cons, watch]
    cases hcb : cb st x with
    | mk res st1 =>
      cases res with
      | some err =>
        simp
      | none =>
        obtain ⟨h1, h2, h3⟩ := ih st1
        refine ⟨?_, ?_, ?_⟩
        · simp [h1]
        · intro c hc
          cases hcalls : (watch cb st1 (rest.map Recv.item)).calls with
          | nil => simp [hcalls] at hc
          | cons y ys =>
            simp only [hcalls, List.dropLast_cons₂, List.mem_cons] at hc
            rcases hc with rfl | hc
            · rfl
            · exact h2 c (by rw [hcalls]; exact hc)
        · intro hlt
          have hlt2 : (watch cb st1 (rest.map Recv.item)).calls.length < rest.length := by
            simpa using hlt
          obtain ⟨y, err, hy, he⟩ := h3 hlt2
          refine ⟨y, err, ?_, he⟩
          simp only [List.getLast?_cons, hy]
          simp

/-- Claim C16: for every sequence of items delivered to a watch loop, with no round for
the subscription error channel, the callback is called on the items in delivery order up
to and including the first item on which it returns an error, and on no item after that:
the calls are made on the first items in order, every call but the last returned nil, and
if an item was left out then the last call returned an error and the loop has returned.
First part: `watchLogs`; second part: `watchBlocks`. -/
theorem watch_until_first_error {σ : Type} (cbLog : σ → Log → Option Error × σ)
    (cbHeader : σ → Header → Option Error × σ) (st : σ) (logs : List Log)
    (headers : List Header) :
    (((watchLogs cbLog st (logs.map Recv.item)).calls.map Prod.fst
        = logs.take (watchLogs cbLog st (logs.map Recv.item)).calls.length) ∧
      (∀ c ∈ (watchLogs cbLog st (logs.map Recv.item)).calls.dropLast, c.2 = none) ∧
      ((watchLogs cbLog st (logs.map Recv.item)).calls.length < logs.length →
        ∃ x err,
          (watchLogs cbLog st (logs.map Recv.item)).calls.getLast? = some (x, some err) ∧
          (watchLogs cbLog st (logs.map Recv.item)).exit = WatchExit.callbackError err)) ∧
    (((watchBlocks cbHeader st (headers.map Recv.item)).calls.map Prod.fst
        = headers.take (watchBlocks cbHeader st (headers.map Recv.item)).calls.length) ∧
      (∀ c ∈ (watchBlocks cbHeader st (headers.map Recv.item)).calls.dropLast, c.2 = none) ∧
      ((watchBlocks cbHeader st (headers.map Recv.item)).calls.length < headers.length →
        ∃ x err,
          (watchBlocks cbHeader st (headers.map Recv.item)).calls.getLast?
            = some (x, some err) ∧
          (watchBlocks cbHeader st (headers.map Recv.item)).exit
            = WatchExit.callbackError err)) :=
  ⟨watch_items cbLog logs st, watch_items cbHeader headers st⟩

/-- Claim C16 at the headers 1, 2, 3, 4, 5 and a callback that fails on the header 3: the
calls are made on 1, 2 and 3. -/
theorem watch_until_first_error_witness :
    (watchBlocks sampleCallback 0 ([⟨1⟩, ⟨2⟩, ⟨3⟩, ⟨4⟩, ⟨5⟩].map Recv.item)).calls
      = [(⟨1⟩, none), (⟨2⟩, none), (⟨3⟩, some (Error.external 1))] ∧
    ((watchBlocks sampleCallback 0 ([⟨1⟩, ⟨2⟩, ⟨3⟩, ⟨4⟩, ⟨5⟩].map Recv.item)).calls.length
        < [(⟨1⟩ : Header), ⟨2⟩, ⟨3⟩, ⟨4⟩, ⟨5⟩].length) ∧
    ∃ x err,
      (watchBlocks sampleCallback 0
        ([⟨1⟩, ⟨2⟩, ⟨3⟩, ⟨4⟩, ⟨5⟩].map Recv.item)).calls.getLast? = some (x, some err) ∧
      (watchBlocks sampleCallback 0 ([⟨1⟩, ⟨2⟩, ⟨3⟩, ⟨4⟩, ⟨5⟩].map Recv.item)).exit
        = WatchExit.callbackError err :=
  ⟨by decide, by decide,
    (watch_until_first_error (fun st _ => (none, st)) sampleCallback 0 []
      [⟨1⟩, ⟨2⟩, ⟨3⟩, ⟨4⟩, ⟨5⟩]).2.2.2 (by decide)⟩

/-- A loop that is still waiting after some rounds goes on with the rounds that follow. -/
theorem watch_append_waiting {σ α : Type} (cb : σ → α → Option Error × σ)
    (pre rest : List (Recv α)) :
    ∀ st : σ, (watch cb st pre).exit = WatchExit.waiting →
      watch cb st (pre ++ rest)
        = { calls := (watch cb st pre).calls ++ (watch cb (watch cb st pre).state rest).calls,
            state := (watch cb (watch cb st pre).state rest).state,
            exit := (watch cb (watch cb st pre).state rest).exit } := by
  induction pre with
  | nil => intro st _; simp [watch]
  | cons e pre ih =>
    intro st h
    cases e with
    | item x =>
      simp only [List.cons_append, watch] at h ⊢
      cases hcb : cb st x with
      | mk res st1 =>
        cases res with
        | some err => simp [hcb] at h
        | none =>
          simp only [hcb] at h ⊢
          rw [show pre.append rest = pre ++ rest from rfl, ih st1 h]
          simp
    | closed => simp [watch] at h
    | subErr err => simp [watch] at h

/-- Claim C17: when a watch loop that has not returned yet observes that its delivery
channel is closed, it returns without a callback call for that signal, and no callback
call is made afterwards, whatever follows: the calls and the state are those made before
the signal. First part: `watchLogs`; second part: `watchBlocks`. -/
theorem watch_closed {σ : Type} (cbLog : σ → Log → Option Error × σ)
    (cbHeader : σ → Header → Option Error × σ) (st : σ)
    (preLogs postLogs : List (Recv Log)) (preHeaders postHeaders : List (Recv Header))
    (hl : (watchLogs cbLog st preLogs).exit = WatchExit.waiting)
    (hh : (watchBlocks cbHeader st preHeaders).exit = WatchExit.waiting) :
    watchLogs cbLog st (preLogs ++ Recv.closed :: postLogs)
      = { calls := (watchLogs cbLog st preLogs).calls,
          state := (watchLogs cbLog st preLogs).state,
          exit := WatchExit.channelClosed } ∧
    watchBlocks cbHeader st (preHeaders ++ Recv.closed :: postHeaders)
      = { calls := (watchBlocks cbHeader st preHeaders).calls,
          state := (watchBlocks cbHeader st preHeaders).state,
          exit := WatchExit.channelClosed } := by
  unfold watchLogs watchBlocks at *
  constructor
  · rw [watch_append_waiting cbLog preLogs _ st hl]
    simp [watch]
  · rw [watch_append_waiting cbHeader preHeaders _ st hh]
    simp [watch]

/-- Claim C17 at the rounds: header 1, header 2, closed, header 4. -/
theorem watch_closed_witness :
    (watchBlocks sampleCallback 0 [Recv.item ⟨1⟩, Recv.item ⟨2⟩]).exit = WatchExit.waiting ∧
    watchBlocks sampleCallback 0
      ([Recv.item ⟨1⟩, Recv.item ⟨2⟩] ++ Recv.closed :: [Recv.item ⟨4⟩])
      = { calls := (watchBlocks sampleCallback 0 [Recv.item ⟨1⟩, Recv.item ⟨2⟩]).calls,
          state := (watchBlocks sampleCallback 0 [Recv.item ⟨1⟩, Recv.item ⟨2⟩]).state,
          exit := WatchExit.channelClosed } :=
  ⟨by decide,
    (watch_closed (fun st _ => (none, st)) sampleCallback 0 [] []
      [Recv.item ⟨1⟩, Recv.item ⟨2⟩] [Recv.item ⟨4⟩] rfl (by decide)).2⟩

/-- Claim C18: `CheckTx` sorts the outcome of the wait into three cases: if the bounded
wait fails (the expiry of the timeout included) it returns the error of the wait; if a
receipt arrives with status 0 it returns the error `tx failed`; if a receipt arrives with
another status it returns nil. The three results differ from each other. -/
theorem CheckTx_classifies (c : client) (tx : Transaction) :
    (∀ err, c.WaitMined c.txTimeout tx = .error err →
      c.CheckTx tx = some (Error.external err)) ∧
    (∀ receipt, c.WaitMined c.txTimeout tx = .ok receipt → receipt.Status = 0 →
      c.CheckTx tx = some (Error.txFailed tx)) ∧
    (∀ receipt, c.WaitMined c.txTimeout tx = .ok receipt → receipt.Status ≠ 0 →
      c.CheckTx tx = none) ∧
    (∀ err, some (Error.external err) ≠ some (Error.txFailed tx) ∧
      some (Error.external err) ≠ (none : Option Error) ∧
      some (Error.txFailed tx) ≠ (none : Option Error)) := by
  refine ⟨?_, ?_, ?_, ?_⟩
  · intro err h
    simp [client.CheckTx, h]
  · intro receipt h hs
    simp [client.CheckTx, h, hs]
  · intro receipt h hs
    simp [client.CheckTx, h, hs]
  · intro err
    simp

/-- Claim C18 at the sample client: a failed wait, a receipt with status 0 and a receipt
with status 1. -/
theorem CheckTx_classifies_witness :
    sampleTxClient.CheckTx 3 = some (Error.external 9) ∧
    sampleTxClient.CheckTx 2 = some (Error.txFailed 2) ∧
    sampleTxClient.CheckTx 1 = none :=
  ⟨(CheckTx_classifies sampleTxClient 3).1 9 rfl,
    (CheckTx_classifies sampleTxClient 2).2.1 ⟨0⟩ rfl rfl,
    (CheckTx_classifies sampleTxClient 1).2.2.1 ⟨1⟩ rfl (by decide)⟩

end eth

/-! ## The manifest on the network -/

namespace core

open eth

/-- Claim C19: for every manifest with more than one video stream,
`BroadcastManifestToNetwork` returns `ErrBroadcast` and makes no
`ReceivedTranscodeResponse` call, so it registers no transcode-response callback. -/
theorem BroadcastManifestToNetwork_multi {σ : Type} (vn : VideoNetwork)
    (manifest : HLSVideoManifest σ) (st : σ) (h : 1 < (manifest.GetVideoStreams st).length) :
    ∃ calls, BroadcastManifestToNetwork vn manifest st = .ok (some Error.ErrBroadcast, calls) ∧
      registerCalls calls = 0 := by
  unfold BroadcastManifestToNetwork
  cases hm : manifest.GetManifest st with
  | error err => exact ⟨[], by simp, rfl⟩
  | ok mpl =>
    cases hu : vn.UpdateMasterPlaylist (manifest.GetManifestID st) mpl with
    | some err =>
      exact ⟨[NetCall.UpdateMasterPlaylist (manifest.GetManifestID st) mpl], by simp [hu], rfl⟩
    | none =>
      exact ⟨[NetCall.UpdateMasterPlaylist (manifest.GetManifestID st) mpl], by simp [hu, h],
        rfl⟩

/-- Claim C19 at a manifest with two streams. -/
theorem BroadcastManifestToNetwork_multi_witness :
    1 < (sampleManifest.GetVideoStreams [sampleSource, sampleSource]).length ∧
    ∃ calls, BroadcastManifestToNetwork sampleNetwork sampleManifest [sampleSource, sampleSource]
        = .ok (some Error.ErrBroadcast, calls) ∧ registerCalls calls = 0 :=
  ⟨by decide,
    BroadcastManifestToNetwork_multi sampleNetwork sampleManifest [sampleSource, sampleSource]
      (by decide)⟩

/-- The `AddVideoStream` calls of two traces in a row. -/
theorem addCalls_append (a b : List NetCall) : addCalls (a ++ b) = addCalls a ++ addCalls b := by
  induction a with
  | nil => rfl
  | cons x rest ih => cases x <;> simp [addCalls, ih]

/-- The `UpdateMasterPlaylist` calls of two traces in a row add up. -/
theorem updateCalls_append (a b : List NetCall) :
    updateCalls (a ++ b) = updateCalls a + updateCalls b := by
  induction a with
  | nil => simp [updateCalls]
  | cons x rest ih =>
    cases x with
    | UpdateMasterPlaylist mid mpl => simp [updateCalls, ih]; omega
    | ReceivedTranscodeResponse strmID => simp [updateCalls, ih]
    | AddVideoStream strm variant => simp [updateCalls, ih]

/-- The loop of the closure makes one `AddVideoStream` call for each entry, in order,
after the calls made before. -/
theorem foldl_addResultStream {σ : Type} (lp : Lpms) (manifest : HLSVideoManifest σ)
    (result : List (String × String)) :
    ∀ acc : σ × List NetCall,
      (result.foldl (addResultStream lp manifest) acc).2
        = acc.2 ++ (result.map (fun entry => (resultStream lp entry, resultVariant lp entry))).map
            (fun c => NetCall.AddVideoStream c.1 c.2) := by
  induction result with
  | nil => intro acc; simp
  | cons e rest ih =>
    intro acc
    rw [List.foldl_cons, ih]
    simp [addResultStream, List.append_assoc]

/-- A trace of `AddVideoStream` calls only. -/
theorem calls_of_addVideoStream (l : List (HLSVideoStream × Variant)) :
    addCalls (l.map (fun c => NetCall.AddVideoStream c.1 c.2)) = l ∧
    updateCalls (l.map (fun c => NetCall.AddVideoStream c.1 c.2)) = 0 := by
  induction l with
  | nil => exact ⟨rfl, rfl⟩
  | cons x rest ih => simp [addCalls, updateCalls, ih.1, ih.2]

/-- Claim C20 fails on the code: with a manifest whose playlist can be built when it is
published but not after the result stream is added, `BroadcastManifestToNetwork` registers
the callback, and the callback on the response that maps `streamA` to `P240p30fps16x9`
adds the stream and then returns without an `UpdateMasterPlaylist` call. -/
theorem transcodeResponseCallback_no_republish :
    BroadcastManifestToNetwork sampleNetwork sampleFailingManifest [sampleSource]
      = .ok (none, [NetCall.UpdateMasterPlaylist "manifest" ⟨[sampleSource.2]⟩,
          NetCall.ReceivedTranscodeResponse "source"]) ∧
    (transcodeResponseCallback sampleLpms sampleNetwork sampleFailingManifest [sampleSource]
        [("streamA", "P240p30fps16x9")]).2
      = [NetCall.AddVideoStream ⟨"streamA", 3⟩
          ⟨"streamA.m3u8", some ⟨3, 1000⟩, ⟨4, "426x240"⟩⟩] ∧
    updateCalls (transcodeResponseCallback sampleLpms sampleNetwork sampleFailingManifest
      [sampleSource] [("streamA", "P240p30fps16x9")]).2 ≠ 1 :=
  ⟨rfl, by decide, by decide⟩

/-- Claim C20, amended: for every transcode-response map delivered to the callback that
`BroadcastManifestToNetwork` registers, the callback calls `AddVideoStream` once for each
entry (stream id `s`, profile name `p`), with a stream whose id is `s` and a variant whose
URI is `s` followed by `.m3u8` and whose parameters are the variant parameters of the
registry profile named `p`; it then republishes the playlist once (one
`UpdateMasterPlaylist` call, the last call) if the playlist of the manifest can be built,
and not at all if it cannot. -/
theorem transcodeResponseCallback_calls {σ : Type} (lp : Lpms) (vn : VideoNetwork)
    (manifest : HLSVideoManifest σ) (st : σ) (result : List (String × String)) :
    addCalls (transcodeResponseCallback lp vn manifest st result).2
      = result.map (fun entry => (resultStream lp entry, resultVariant lp entry)) ∧
    (∀ entry : String × String,
      (resultStream lp entry).GetStreamID = entry.1 ∧
      (resultVariant lp entry).URI = entry.1 ++ ".m3u8" ∧
      (resultVariant lp entry).VariantParams
        = lp.VideoProfileToVariantParams (lp.VideoProfileLookup entry.2)) ∧
    (∀ mpl, manifest.GetManifest (transcodeResponseCallback lp vn manifest st result).1 = .ok mpl →
      updateCalls (transcodeResponseCallback lp vn manifest st result).2 = 1 ∧
      (transcodeResponseCallback lp vn manifest st result).2.getLast?
        = some (NetCall.UpdateMasterPlaylist
            (manifest.GetManifestID (transcodeResponseCallback lp vn manifest st result).1)
            mpl)) ∧
    (∀ err,
      manifest.GetManifest (transcodeResponseCallback lp vn manifest st result).1 = .error err →
      updateCalls (transcodeResponseCallback lp vn manifest st result).2 = 0) := by
  have hfold := foldl_addResultStream lp manifest result (st, [])
  simp only [List.nil_append] at hfold
  have hstate : (transcodeResponseCallback lp vn manifest st result).1
      = (result.foldl (addResultStream lp manifest) (st, [])).1 := by
    unfold transcodeResponseCallback
    cases hm : manifest.GetManifest (result.foldl (addResultStream lp manifest) (st, [])).1 with
    | error err => simp [hm]
    | ok mpl =>
      cases hu : vn.UpdateMasterPlaylist
          (manifest.GetManifestID (result.foldl (addResultStream lp manifest) (st, [])).1)
          mpl with
      | some e => simp [hm, hu]
      | none => simp [hm, hu]
  rw [hstate]
  cases hm : manifest.GetManifest (result.foldl (addResultStream lp manifest) (st, [])).1 with
  | error err =>
    have hcalls : (transcodeResponseCallback lp vn manifest st result).2
        = (result.foldl (addResultStream lp manifest) (st, [])).2 := by
      unfold transcodeResponseCallback
      simp [hm]
    rw [hcalls, hfold]
    refine ⟨(calls_of_addVideoStream _).1, fun _ => ⟨rfl, rfl, rfl⟩, ?_, ?_⟩
    · intro mpl h; exact Except.noConfusion h
    · intro _ _; exact (calls_of_addVideoStream _).2
  | ok mpl =>
    have hcalls : (transcodeResponseCallback lp vn manifest st result).2
        = (result.foldl (addResultStream lp manifest) (st, [])).2
          ++ [NetCall.UpdateMasterPlaylist
            (manifest.GetManifestID (result.foldl (addResultStream lp manifest) (st, [])).1)
            mpl] := by
      unfold transcodeResponseCallback
      cases hu : vn.UpdateMasterPlaylist
          (manifest.GetManifestID (result.foldl (addResultStream lp manifest) (st, [])).1)
          mpl with
      | some e => simp [hm, hu]
      | none => simp [hm, hu]
    rw [hcalls, hfold]
    refine ⟨?_, fun _ => ⟨rfl, rfl, rfl⟩, ?_, ?_⟩
    · rw [addCalls_append, (calls_of_addVideoStream _).1]
      simp [addCalls]
    · intro mpl2 h
      injection h with h
      subst h
      refine ⟨?_, ?_⟩
      · rw [updateCalls_append, (calls_of_addVideoStream _).2]
        simp [updateCalls]
      · simp
    · intro err h; exact Except.noConfusion h

/-- Claim C20, amended, at the sample manifest and the response that maps `streamA` to
`P240p30fps16x9`. -/
theorem transcodeResponseCallback_calls_witness :
    addCalls (transcodeResponseCallback sampleLpms sampleNetwork sampleManifest [sampleSource]
        [("streamA", "P240p30fps16x9")]).2
      = [(⟨"streamA", 3⟩, ⟨"streamA.m3u8", some ⟨3, 1000⟩, ⟨4, "426x240"⟩⟩)] ∧
    updateCalls (transcodeResponseCallback sampleLpms sampleNetwork sampleManifest
      [sampleSource] [("streamA", "P240p30fps16x9")]).2 = 1 :=
  ⟨(transcodeResponseCallback_calls sampleLpms sampleNetwork sampleManifest [sampleSource]
      [("streamA", "P240p30fps16x9")]).1.trans (by decide),
    ((transcodeResponseCallback_calls sampleLpms sampleNetwork sampleManifest [sampleSource]
      [("streamA", "P240p30fps16x9")]).2.2.1 _ rfl).1⟩

end core

/-! ## Segments on the network -/

namespace core

open eth

/-- Claim C21 fails on the code: when `Unsubscribe` returns an error, the callback returns
after the `Unsubscribe` call and does not call `End` on the local stream. -/
theorem subscribeCallback_eof_unsubscribe_error :
    subscribeCallback sampleSegmentFns ⟨some (Error.external 1)⟩ ⟨fun _ => none⟩ 0 [] true
      = [StreamCall.Unsubscribe] ∧
    (subscribeCallback sampleSegmentFns ⟨some (Error.external 1)⟩ ⟨fun _ => none⟩ 0 []
      true).count StreamCall.End = 0 := by
  decide

/-- Claim C21, amended: for every end-of-stream delivery to the callback registered by
`SubscribeFromNetwork`, the callback calls `Unsubscribe` exactly once and appends no
segment to the local stream; it calls `End` on the local stream, once and after the
`Unsubscribe` call, if `Unsubscribe` returns nil, and not at all if it returns an error. -/
theorem subscribeCallback_eof (f : SegmentFns) (sub : Subscriber) (strm : LocalStream)
    (seqNo : Nat) (data : Bytes) :
    (subscribeCallback f sub strm seqNo data true).count StreamCall.Unsubscribe = 1 ∧
    appended (subscribeCallback f sub strm seqNo data true) = [] ∧
    (sub.Unsubscribe = none →
      subscribeCallback f sub strm seqNo data true
        = [StreamCall.Unsubscribe, StreamCall.End]) ∧
    (sub.Unsubscribe ≠ none →
      subscribeCallback f sub strm seqNo data true = [StreamCall.Unsubscribe]) := by
  unfold subscribeCallback
  cases h : sub.Unsubscribe with
  | none => simp [appended, List.count_cons]
  | some err => simp [appended, List.count_cons]

/-- Claim C21, amended, at a subscriber whose `Unsubscribe` returns nil. -/
theorem subscribeCallback_eof_witness :
    subscribeCallback sampleSegmentFns ⟨none⟩ ⟨fun _ => none⟩ 9 [1, 2] true
      = [StreamCall.Unsubscribe, StreamCall.End] :=
  (subscribeCallback_eof sampleSegmentFns ⟨none⟩ ⟨fun _ => none⟩ 9 [1, 2]).2.2.1 rfl

/-- Claim C22 fails on the code: for a manifest without video stream whose playlist is
built and accepted by the network, `BroadcastManifestToNetwork` indexes the empty stream
list at 0 and panics. -/
theorem BroadcastManifestToNetwork_no_stream_panics :
    (sampleManifest.GetVideoStreams []).length = 0 ∧
    BroadcastManifestToNetwork sampleNetwork sampleManifest []
      = .error Panic.indexOutOfRange :=
  ⟨rfl, rfl⟩

/-- When signing fails, `BroadcastHLSSegToNetwork` returns the error of `Sign` after the
`Sign` call. -/
theorem BroadcastHLSSegToNetwork_sign_error (d : Deps) (f : SegmentFns) (n : LivepeerNode)
    (client : LivepeerEthClient) (strmID : String) (seg : HLSSegment) (b : Broadcaster)
    (err : Error) (hEth : n.Eth = some client)
    (hs : client.Sign (segHash d f strmID seg) = .error err) :
    BroadcastHLSSegToNetwork d f n strmID seg b
      = .ok (some err, [BroadcastCall.Sign (segHash d f strmID seg)]) := by
  unfold BroadcastHLSSegToNetwork
  simp only [hEth, hs]

/-- When signing gives `sig` and encoding fails, `BroadcastHLSSegToNetwork` returns the
error of the encoding after the `Sign` call, without a `Broadcast` call. -/
theorem BroadcastHLSSegToNetwork_encode_error (d : Deps) (f : SegmentFns) (n : LivepeerNode)
    (client : LivepeerEthClient) (strmID : String) (seg : HLSSegment) (b : Broadcaster)
    (sig : Bytes) (err : Error) (hEth : n.Eth = some client)
    (hs : client.Sign (segHash d f strmID seg) = .ok sig)
    (he : f.SignedSegmentToBytes { Seg := seg, Sig := sig } = .error err) :
    BroadcastHLSSegToNetwork d f n strmID seg b
      = .ok (some err, [BroadcastCall.Sign (segHash d f strmID seg)]) := by
  unfold BroadcastHLSSegToNetwork
  simp only [hEth, hs, he]

/-- When signing gives `sig` and encoding gives `ssb`, `BroadcastHLSSegToNetwork` returns
nil after the `Sign` call on `segHash` and one `Broadcast` call with the sequence number
of the segment and `ssb`, whatever `Broadcast` returns. -/
theorem BroadcastHLSSegToNetwork_ok (d : Deps) (f : SegmentFns) (n : LivepeerNode)
    (client : LivepeerEthClient) (strmID : String) (seg : HLSSegment) (b : Broadcaster)
    (sig ssb : Bytes) (hEth : n.Eth = some client)
    (hs : client.Sign (segHash d f strmID seg) = .ok sig)
    (he : f.SignedSegmentToBytes { Seg := seg, Sig := sig } = .ok ssb) :
    BroadcastHLSSegToNetwork d f n strmID seg b
      = .ok (none, [BroadcastCall.Sign (segHash d f strmID seg),
          BroadcastCall.Broadcast seg.SeqNo ssb]) := by
  unfold BroadcastHLSSegToNetwork
  simp only [hEth, hs, he]
  cases hb : b.Broadcast seg.SeqNo ssb with
  | none => rfl
  | some err => rfl

/-- With a ledger client, `BroadcastHLSSegToNetwork` returns, and it signs one message,
the value `segHash`. -/
theorem BroadcastHLSSegToNetwork_signs (d : Deps) (f : SegmentFns) (n : LivepeerNode)
    (client : LivepeerEthClient) (strmID : String) (seg : HLSSegment) (b : Broadcaster)
    (hEth : n.Eth = some client) :
    ∃ e calls, BroadcastHLSSegToNetwork d f n strmID seg b = .ok (e, calls) ∧
      signedMessages calls = [segHash d f strmID seg] := by
  cases hs : client.Sign (segHash d f strmID seg) with
  | error err =>
    exact ⟨_, _, BroadcastHLSSegToNetwork_sign_error d f n client strmID seg b err hEth hs, rfl⟩
  | ok sig =>
    cases he : f.SignedSegmentToBytes { Seg := seg, Sig := sig } with
    | error err =>
      exact ⟨_, _,
        BroadcastHLSSegToNetwork_encode_error d f n client strmID seg b sig err hEth hs he, rfl⟩
    | ok ssb =>
      exact ⟨_, _, BroadcastHLSSegToNetwork_ok d f n client strmID seg b sig ssb hEth hs he, rfl⟩

/-- Claim C23 fails on the code: the sequence number goes through `int64` before it is
hashed. For the segment with sequence number `2 ^ 64 - 1`, where signing and encoding
succeed, the message signed is the hash over the sequence number `-1`, which is not the
hash over `2 ^ 64 - 1`, while `Broadcast` is called with `2 ^ 64 - 1`. -/
theorem BroadcastHLSSegToNetwork_seqNo_wraps :
    BroadcastHLSSegToNetwork sampleDeps sampleSegmentFns ⟨some sampleClient⟩ "stream"
        { sampleSegment with SeqNo := 18446744073709551615 } sampleFailingBroadcaster
      = .ok (none,
          [BroadcastCall.Sign (sampleSegmentFns.Hash
              { StreamID := "stream", SegmentSequenceNumber := -1,
                DataHash := sampleDeps.Keccak256 [1, 2, 3] }),
            BroadcastCall.Broadcast 18446744073709551615 [255, 4, 6, 1, 1, 32, 1, 2, 3]]) ∧
    sampleSegmentFns.Hash
        { StreamID := "stream", SegmentSequenceNumber := -1,
          DataHash := sampleDeps.Keccak256 [1, 2, 3] }
      ≠ sampleSegmentFns.Hash
        { StreamID := "stream", SegmentSequenceNumber := 18446744073709551615,
          DataHash := sampleDeps.Keccak256 [1, 2, 3] } :=
  ⟨rfl, by decide⟩

/-- Claim C26 fails on the code: on a node whose `Eth` is nil, `BroadcastHLSSegToNetwork`
does not return an error; the call `n.Eth.Sign` panics, for every stream id, segment and
broadcaster. -/
theorem BroadcastHLSSegToNetwork_nil_Eth_panics (d : Deps) (f : SegmentFns) (strmID : String)
    (seg : HLSSegment) (b : Broadcaster) :
    BroadcastHLSSegToNetwork d f ⟨none⟩ strmID seg b = .error Panic.nilDereference :=
  rfl

/-- Claim C28: with a ledger client, `BroadcastHLSSegToNetwork` returns, and the error it
returns is non-nil if and only if signing the segment hash fails or encoding the signed
segment fails; when signing and encoding succeed and `Broadcast` fails, it returns nil. -/
theorem BroadcastHLSSegToNetwork_error_iff (d : Deps) (f : SegmentFns) (n : LivepeerNode)
    (client : LivepeerEthClient) (strmID : String) (seg : HLSSegment) (b : Broadcaster)
    (hEth : n.Eth = some client) :
    ∃ e calls, BroadcastHLSSegToNetwork d f n strmID seg b = .ok (e, calls) ∧
      (e ≠ none ↔
        ((∃ err, client.Sign (segHash d f strmID seg) = .error err) ∨
         (∃ sig err, client.Sign (segHash d f strmID seg) = .ok sig ∧
            f.SignedSegmentToBytes { Seg := seg, Sig := sig } = .error err))) ∧
      (∀ sig ssb err, client.Sign (segHash d f strmID seg) = .ok sig →
        f.SignedSegmentToBytes { Seg := seg, Sig := sig } = .ok ssb →
        b.Broadcast seg.SeqNo ssb = some err → e = none) := by
  cases hs : client.Sign (segHash d f strmID seg) with
  | error err =>
    refine ⟨_, _, BroadcastHLSSegToNetwork_sign_error d f n client strmID seg b err hEth hs,
      ?_, ?_⟩
    · simp
    · intro sig ssb e h; exact Except.noConfusion h
  | ok sig =>
    cases he : f.SignedSegmentToBytes { Seg := seg, Sig := sig } with
    | error err =>
      refine ⟨_, _,
        BroadcastHLSSegToNetwork_encode_error d f n client strmID seg b sig err hEth hs he,
        ?_, ?_⟩
      · simp [he]
      · intro sig2 ssb e h h2
        injection h with h
        subst h
        rw [he] at h2
        exact Except.noConfusion h2
    | ok ssb =>
      refine ⟨_, _, BroadcastHLSSegToNetwork_ok d f n client strmID seg b sig ssb hEth hs he,
        ?_, ?_⟩
      · simp [he]
      · intro _ _ _ _ _ _; rfl

/-- Claim C28 at the sample segment and a broadcaster that fails: the function returns
nil. -/
theorem BroadcastHLSSegToNetwork_error_iff_witness :
    sampleFailingBroadcaster.Broadcast 7 [7, 4, 6, 0, 7, 32, 1, 2, 3]
      = some (Error.external 6) ∧
    ∃ e calls,
      BroadcastHLSSegToNetwork sampleDeps sampleSegmentFns ⟨some sampleClient⟩ "stream"
        sampleSegment sampleFailingBroadcaster = .ok (e, calls) ∧ e = none := by
  obtain ⟨e, calls, h, -, hb⟩ := BroadcastHLSSegToNetwork_error_iff sampleDeps sampleSegmentFns
    ⟨some sampleClient⟩ sampleClient "stream" sampleSegment sampleFailingBroadcaster rfl
  exact ⟨rfl, e, calls, h, hb _ _ _ rfl rfl rfl⟩

/-- Claim C29: the message that `BroadcastHLSSegToNetwork` signs depends only on the
stream id, the sequence number and the data of the segment: for two segments with the
same sequence number and data, whatever their names and durations, broadcast under the
same stream id, the hash is the same, and it is the one message signed in either call. -/
theorem segHash_depends_on (d : Deps) (f : SegmentFns) (n : LivepeerNode)
    (client : LivepeerEthClient) (strmID : String) (seg1 seg2 : HLSSegment)
    (b1 b2 : Broadcaster) (hEth : n.Eth = some client)
    (hseq : seg1.SeqNo = seg2.SeqNo) (hdata : seg1.Data = seg2.Data) :
    segHash d f strmID seg1 = segHash d f strmID seg2 ∧
    ∃ e1 calls1 e2 calls2,
      BroadcastHLSSegToNetwork d f n strmID seg1 b1 = .ok (e1, calls1) ∧
      BroadcastHLSSegToNetwork d f n strmID seg2 b2 = .ok (e2, calls2) ∧
      signedMessages calls1 = [segHash d f strmID seg1] ∧
      signedMessages calls2 = signedMessages calls1 := by
  have hh : segHash d f strmID seg1 = segHash d f strmID seg2 := by
    unfold segHash
    rw [hseq, hdata]
  obtain ⟨e1, calls1, h1, hm1⟩ := BroadcastHLSSegToNetwork_signs d f n client strmID seg1 b1 hEth
  obtain ⟨e2, calls2, h2, hm2⟩ := BroadcastHLSSegToNetwork_signs d f n client strmID seg2 b2 hEth
  exact ⟨hh, e1, calls1, e2, calls2, h1, h2, hm1, by rw [hm2, hm1, hh]⟩

/-- Claim C29 at the sample segment and a segment with another name and duration. -/
theorem segHash_depends_on_witness :
    sampleSegment.Name ≠ "other.ts" ∧
    segHash sampleDeps sampleSegmentFns "stream" sampleSegment
      = segHash sampleDeps sampleSegmentFns "stream"
          { sampleSegment with Name := "other.ts", Duration := 2 } :=
  ⟨by decide,
    (segHash_depends_on sampleDeps sampleSegmentFns ⟨some sampleClient⟩ sampleClient "stream"
      sampleSegment { sampleSegment with Name := "other.ts", Duration := 2 }
      sampleFailingBroadcaster sampleFailingBroadcaster rfl rfl rfl).1⟩

/-- Claim C30: for every manifest with more than one video stream whose playlist can be
built, `BroadcastManifestToNetwork` calls `UpdateMasterPlaylist` exactly once, with the
playlist, and then returns `ErrBroadcast`, whether the network accepts the playlist or
not: the playlist is pushed before the manifest is rejected. -/
theorem BroadcastManifestToNetwork_multi_pushes {σ : Type} (vn : VideoNetwork)
    (manifest : HLSVideoManifest σ) (st : σ) (mpl : MasterPlaylist)
    (h : 1 < (manifest.GetVideoStreams st).length) (hm : manifest.GetManifest st = .ok mpl) :
    BroadcastManifestToNetwork vn manifest st
      = .ok (some Error.ErrBroadcast,
          [NetCall.UpdateMasterPlaylist (manifest.GetManifestID st) mpl]) ∧
    updateCalls [NetCall.UpdateMasterPlaylist (manifest.GetManifestID st) mpl] = 1 := by
  unfold BroadcastManifestToNetwork
  simp only [hm]
  cases hu : vn.UpdateMasterPlaylist (manifest.GetManifestID st) mpl with
  | some err => exact ⟨rfl, rfl⟩
  | none => exact ⟨by simp [h], rfl⟩

/-- Claim C30 at a manifest with two streams. -/
theorem BroadcastManifestToNetwork_multi_pushes_witness :
    1 < (sampleManifest.GetVideoStreams [sampleSource, sampleSource]).length ∧
    BroadcastManifestToNetwork sampleNetwork sampleManifest [sampleSource, sampleSource]
      = .ok (some Error.ErrBroadcast,
          [NetCall.UpdateMasterPlaylist "manifest" ⟨[sampleSource.2, sampleSource.2]⟩]) :=
  ⟨by decide,
    (BroadcastManifestToNetwork_multi_pushes sampleNetwork sampleManifest
      [sampleSource, sampleSource] ⟨[sampleSource.2, sampleSource.2]⟩ (by decide) rfl).1⟩

end core

/-! ## The filter of `SubscribeNewJob`, and `Stop` and `Start` of a service -/

namespace eth

/-- The big-endian bytes of a number in `len` bytes are `len` bytes. -/
theorem beBytes_length (len : Nat) : ∀ n : Nat, (beBytes n len).length = len := by
  induction len with
  | zero => intro n; rfl
  | succ k ih => intro n; simp [beBytes, ih]

/-- An address has 20 bytes. -/
theorem Address_Bytes_length (addr : Address) : (Address.Bytes addr).length = 20 :=
  beBytes_length 20 addr

/-- The topic of an address: the 20 bytes after 12 zero bytes. -/
theorem addressTopic (addr : Address) :
    BytesToHash (LeftPadBytes (Address.Bytes addr) 32)
      = List.replicate 12 0 ++ Address.Bytes addr := by
  have h := Address_Bytes_length addr
  have hpad : LeftPadBytes (Address.Bytes addr) 32
      = List.replicate 12 0 ++ Address.Bytes addr := by
    simp [LeftPadBytes, h]
  rw [hpad]
  simp [BytesToHash, h]

/-- Claim C24: for every broadcaster address, when the ABI parses and the map has the
`JobsManager` address, the first effect of `SubscribeNewJob` is the subscription of a
filter with that address as its only address and the `NewJob` event id as its first
topic; for the all-zero address the filter has exactly this one topic slot, and otherwise
it has exactly two, the second being the 20 bytes of the address after 12 zero bytes, 32
bytes in all. -/
theorem SubscribeNewJob_filter {κ : Type} (c : Contracts) (em : eventMonitor) (abi : ABI)
    (contractAddr : Address) (logsCh : Chan) (broadcasterAddr : Address) (cb : κ)
    (hj : c.JobsManagerABI = .ok abi)
    (hc : em.contractAddrMap "JobsManager" = some contractAddr) :
    ∃ q res rest,
      (em.SubscribeNewJob c logsCh broadcasterAddr cb).2
        = MonitorEffect.SubscribeFilterLogs q logsCh res :: rest ∧
      q.Addresses = [contractAddr] ∧
      q.Topics.head? = some [abi.EventId "NewJob"] ∧
      (Address.Bytes broadcasterAddr = List.replicate 20 0 →
        q.Topics = [[abi.EventId "NewJob"]]) ∧
      (Address.Bytes broadcasterAddr ≠ List.replicate 20 0 →
        q.Topics = [[abi.EventId "NewJob"],
          [List.replicate 12 0 ++ Address.Bytes broadcasterAddr]] ∧
        (List.replicate 12 0 ++ Address.Bytes broadcasterAddr).length = 32) := by
  by_cases hnull : Address.Bytes broadcasterAddr = List.replicate 20 0
  · have hn : IsNullAddress broadcasterAddr = true := decide_eq_true hnull
    cases hs : em.backend.SubscribeFilterLogs
        (FilterQuery.mk [contractAddr] [[abi.EventId "NewJob"]]) logsCh with
    | error err =>
      refine ⟨FilterQuery.mk [contractAddr] [[abi.EventId "NewJob"]], none, [],
        ?_, rfl, rfl, fun _ => rfl, fun h => absurd hnull h⟩
      simp only [eventMonitor.SubscribeNewJob, hj, hc, hn, hs, Bool.not_true, Bool.not_false,
        Bool.false_eq_true, if_true, if_false]
    | ok sub =>
      refine ⟨FilterQuery.mk [contractAddr] [[abi.EventId "NewJob"]], some sub,
        [MonitorEffect.GoWatchLogs sub logsCh cb],
        ?_, rfl, rfl, fun _ => rfl, fun h => absurd hnull h⟩
      simp only [eventMonitor.SubscribeNewJob, hj, hc, hn, hs, Bool.not_true, Bool.not_false,
        Bool.false_eq_true, if_true, if_false]
  · have hn : IsNullAddress broadcasterAddr = false := decide_eq_false hnull
    have hlen : (List.replicate 12 0 ++ Address.Bytes broadcasterAddr).length = 32 := by
      simp [Address_Bytes_length]
    cases hs : em.backend.SubscribeFilterLogs
        (FilterQuery.mk [contractAddr]
          [[abi.EventId "NewJob"], [List.replicate 12 0 ++ Address.Bytes broadcasterAddr]])
        logsCh with
    | error err =>
      refine ⟨FilterQuery.mk [contractAddr]
          [[abi.EventId "NewJob"], [List.replicate 12 0 ++ Address.Bytes broadcasterAddr]],
        none, [], ?_, rfl, rfl, fun h => absurd h hnull, fun _ => ⟨rfl, hlen⟩⟩
      simp only [eventMonitor.SubscribeNewJob, hj, hc, hn, addressTopic, hs, Bool.not_true,
        Bool.not_false, Bool.false_eq_true, if_true, if_false]
    | ok sub =>
      refine ⟨FilterQuery.mk [contractAddr]
          [[abi.EventId "NewJob"], [List.replicate 12 0 ++ Address.Bytes broadcasterAddr]],
        some sub, [MonitorEffect.GoWatchLogs sub logsCh cb],
        ?_, rfl, rfl, fun h => absurd h hnull, fun _ => ⟨rfl, hlen⟩⟩
      simp only [eventMonitor.SubscribeNewJob, hj, hc, hn, addressTopic, hs, Bool.not_true,
        Bool.not_false, Bool.false_eq_true, if_true, if_false]

/-- Claim C24 at the sample monitor and the broadcaster address 5. -/
theorem SubscribeNewJob_filter_witness :
    sampleJobsMonitor.contractAddrMap "JobsManager" = some 77 ∧
    ∃ q res rest,
      (sampleJobsMonitor.SubscribeNewJob sampleContracts 0 5 Callback.returnNil).2
        = MonitorEffect.SubscribeFilterLogs q 0 res :: rest ∧
      q.Addresses = [77] ∧
      q.Topics.head? = some [List.replicate 32 6] ∧
      (Address.Bytes 5 = List.replicate 20 0 → q.Topics = [[List.replicate 32 6]]) ∧
      (Address.Bytes 5 ≠ List.replicate 20 0 →
        q.Topics = [[List.replicate 32 6], [List.replicate 12 0 ++ Address.Bytes 5]] ∧
        (List.replicate 12 0 ++ Address.Bytes 5).length = 32) :=
  ⟨by decide,
    SubscribeNewJob_filter sampleContracts sampleJobsMonitor
      ⟨fun name => List.replicate 32 name.length⟩ 77 0 5 Callback.returnNil rfl (by decide)⟩

/-- On a rounds service without handle, a successful subscribe call makes `Start` store
the new channel and the handle. -/
theorem RoundsService_Start_of_stopped (s : RoundsService) (t : Trace) (sub : Subscription)
    (h : s.sub = none)
    (hs : s.eventMonitor.SubscribeNewBlocks (makeChan t) Callback.initializeRound = .ok sub) :
    s.Start t = (none, { s with headersCh := some (makeChan t), sub := some sub },
      t ++ [Effect.MakeChan (makeChan t),
        Effect.SubscribeNewBlocks (makeChan t) Callback.initializeRound (some sub)]) := by
  unfold RoundsService.Start
  simp [h, hs]

/-- On a rounds service without handle, a failed subscribe call makes `Start` return the
error and leave the service as it was. -/
theorem RoundsService_Start_of_failed (s : RoundsService) (t : Trace) (err : Error)
    (h : s.sub = none)
    (hs : s.eventMonitor.SubscribeNewBlocks (makeChan t) Callback.initializeRound
      = .error err) :
    s.Start t = (some err, s,
      t ++ [Effect.MakeChan (makeChan t),
        Effect.SubscribeNewBlocks (makeChan t) Callback.initializeRound none]) := by
  unfold RoundsService.Start
  simp [h, hs]

/-- On a reward service without handle, a failed subscribe call makes `Start` return the
error and leave the service as it was. -/
theorem RewardService_Start_of_failed (s : RewardService) (t : Trace) (err : Error)
    (h : s.sub = none)
    (hs : s.eventMonitor.SubscribeNewRound (makeChan t) Callback.returnNil = .error err) :
    s.Start t = (some err, s,
      t ++ [Effect.MakeChan (makeChan t),
        Effect.SubscribeNewRound (makeChan t) Callback.returnNil none]) := by
  unfold RewardService.Start
  simp [h, hs]

/-- On a rounds service without handle, `Stop` fails and changes nothing. -/
theorem RoundsService_Stop_stopped_aux (s : RoundsService) (t : Trace) (h : s.sub = none) :
    s.Stop t = .ok (some Error.ErrRoundsServiceStopped, s, t) := by
  unfold RoundsService.Stop
  rw [h]

/-- On a rounds service without handle, `Start` goes on to the subscribe call: it is not
rejected as already started. -/
theorem RoundsService_Start_subscribes (s : RoundsService) (t : Trace) (h : s.sub = none) :
    ∃ res, (s.Start t).2.2 = t ++ [Effect.MakeChan (makeChan t),
      Effect.SubscribeNewBlocks (makeChan t) Callback.initializeRound res] := by
  cases hs : s.eventMonitor.SubscribeNewBlocks (makeChan t) Callback.initializeRound with
  | error err => exact ⟨none, by rw [RoundsService_Start_of_failed s t err h hs]⟩
  | ok sub => exact ⟨some sub, by rw [RoundsService_Start_of_stopped s t sub h hs]⟩

/-- Claim C25: on a rounds service started by a successful `Start`, `Stop` returns nil,
closes the headers channel that `Start` made, calls `Unsubscribe` on the held handle
once, and leaves `sub` and `headersCh` nil; a following `Start` is then not rejected as
already started: it goes on to the subscribe call. -/
theorem RoundsService_Stop_after_Start (s : RoundsService) (t : Trace) (sub : Subscription)
    (h : s.sub = none)
    (hs : s.eventMonitor.SubscribeNewBlocks (makeChan t) Callback.initializeRound = .ok sub) :
    ∃ s1 t1 s2 t2,
      s.Start t = (none, s1, t1) ∧
      s1.sub = some sub ∧ s1.headersCh = some (makeChan t) ∧
      Effect.MakeChan (makeChan t) ∈ t1 ∧
      s1.Stop t1 = .ok (none, s2, t2) ∧
      t2 = t1 ++ [Effect.Close (makeChan t), Effect.Unsubscribe sub] ∧
      unsubscribed t2 = unsubscribed t1 + 1 ∧
      s2.sub = none ∧ s2.headersCh = none ∧
      ∃ res, (s2.Start t2).2.2 = t2 ++ [Effect.MakeChan (makeChan t2),
        Effect.SubscribeNewBlocks (makeChan t2) Callback.initializeRound res] := by
  refine ⟨{ s with headersCh := some (makeChan t), sub := some sub },
    t ++ [Effect.MakeChan (makeChan t),
      Effect.SubscribeNewBlocks (makeChan t) Callback.initializeRound (some sub)],
    { s with headersCh := none, sub := none },
    (t ++ [Effect.MakeChan (makeChan t),
      Effect.SubscribeNewBlocks (makeChan t) Callback.initializeRound (some sub)])
      ++ [Effect.Close (makeChan t), Effect.Unsubscribe sub],
    RoundsService_Start_of_stopped s t sub h hs, rfl, rfl, by simp, ?_, rfl, ?_, rfl, rfl,
    RoundsService_Start_subscribes _ _ rfl⟩
  · unfold RoundsService.Stop
    simp [makeChan_not_closed t]
  · rw [unsubscribed_append]
    simp [unsubscribed]

/-- Claim C25 at a new rounds service with the sample event monitor. -/
theorem RoundsService_Stop_after_Start_witness :
    ∃ s1 t1 s2,
      (NewRoundsService sampleMonitor core.sampleClient).Start [] = (none, s1, t1) ∧
      s1.Stop t1 = .ok (none, s2, t1 ++ [Effect.Close 0, Effect.Unsubscribe 300]) ∧
      s2.sub = none ∧ s2.headersCh = none := by
  obtain ⟨s1, t1, s2, t2, h1, -, -, -, h2, h3, -, h4, h5, -⟩ :=
    RoundsService_Stop_after_Start (NewRoundsService sampleMonitor core.sampleClient) [] 300
      rfl rfl
  exact ⟨s1, t1, s2, h1, by rw [h2, h3]; rfl, h4, h5⟩

/-- Claim C27: when the subscribe call of `Start` fails on a service without handle,
`Start` returns the error of the subscribe call and leaves the service as it was, with
`sub` nil; a later `Stop` returns the already-stopped error, and a later `Start` is not
rejected: when its subscribe call succeeds it returns nil. First part: `RoundsService`;
second part: `RewardService`. -/
theorem Start_subscribe_error (rounds : RoundsService) (reward : RewardService) (t : Trace)
    (err1 err2 : Error) (h1 : rounds.sub = none) (h2 : reward.sub = none)
    (hs1 : rounds.eventMonitor.SubscribeNewBlocks (makeChan t) Callback.initializeRound
      = .error err1)
    (hs2 : reward.eventMonitor.SubscribeNewRound (makeChan t) Callback.returnNil
      = .error err2) :
    (∃ t1, rounds.Start t = (some err1, rounds, t1) ∧
      (rounds.Start t).2.1.sub = none ∧
      (rounds.Start t).2.1.headersCh = rounds.headersCh ∧
      rounds.Stop t1 = .ok (some Error.ErrRoundsServiceStopped, rounds, t1) ∧
      ∀ t2 sub,
        rounds.eventMonitor.SubscribeNewBlocks (makeChan t2) Callback.initializeRound = .ok sub →
        (rounds.Start t2).1 = none) ∧
    (∃ t1, reward.Start t = (some err2, reward, t1) ∧
      (reward.Start t).2.1.sub = none ∧
      (reward.Start t).2.1.logsCh = reward.logsCh ∧
      reward.Stop t1 = .ok (some Error.ErrRewardServiceStopped, reward, t1) ∧
      ∀ t2 sub,
        reward.eventMonitor.SubscribeNewRound (makeChan t2) Callback.returnNil = .ok sub →
        (reward.Start t2).1 = none) := by
  constructor
  · refine ⟨_, RoundsService_Start_of_failed rounds t err1 h1 hs1, ?_, ?_,
      RoundsService_Stop_stopped_aux rounds _ h1, ?_⟩
    · rw [RoundsService_Start_of_failed rounds t err1 h1 hs1]; exact h1
    · rw [RoundsService_Start_of_failed rounds t err1 h1 hs1]
    · intro t2 sub hok
      rw [RoundsService_Start_of_stopped rounds t2 sub h1 hok]
  · refine ⟨_, RewardService_Start_of_failed reward t err2 h2 hs2, ?_, ?_,
      RewardService_Stop_of_stopped reward _ h2, ?_⟩
    · rw [RewardService_Start_of_failed reward t err2 h2 hs2]; exact h2
    · rw [RewardService_Start_of_failed reward t err2 h2 hs2]
    · intro t2 sub hok
      rw [RewardService_Start_of_stopped reward t2 sub h2 hok]

/-- Claim C27 at services whose event monitor fails on every subscribe call. -/
theorem Start_subscribe_error_witness :
    (∃ t1, (NewRoundsService sampleFailingMonitor core.sampleClient).Start []
        = (some (Error.external 7), NewRoundsService sampleFailingMonitor core.sampleClient, t1) ∧
      (NewRoundsService sampleFailingMonitor core.sampleClient).Stop t1
        = .ok (some Error.ErrRoundsServiceStopped,
            NewRoundsService sampleFailingMonitor core.sampleClient, t1)) ∧
    (∃ t1, RewardService.Start { sampleRewardService with eventMonitor := sampleFailingMonitor } []
        = (some (Error.external 7),
            { sampleRewardService with eventMonitor := sampleFailingMonitor }, t1)) := by
  obtain ⟨⟨t1, ha, -, -, hb, -⟩, ⟨t2, hc, -⟩⟩ :=
    Start_subscribe_error (NewRoundsService sampleFailingMonitor core.sampleClient)
      { sampleRewardService with eventMonitor := sampleFailingMonitor } []
      (Error.external 7) (Error.external 7) rfl rfl rfl rfl
  exact ⟨⟨t1, ha, hb⟩, ⟨t2, hc⟩⟩

end eth
